import Mathlib

/-!
# api-gateway: admission control, response caching and the user handlers

A shallow embedding of `internal/middleware/ratelimit.go`,
`internal/middleware/cache.go`, `internal/handlers/user_handler.go`,
`internal/services/user_service.go` and `internal/utils/http/http_sender.go`,
together with the parts of the libraries they call (`time`, `strconv`,
`golang.org/x/time/rate`, `gin`, `net/http`, `go-redis`, `encoding/json`) that
decide their behaviour.

Conventions of the embedding:
* a Go `string` or `[]byte` that travels through JSON is a list of bytes
  (`Bytes`, every element below 256); request method, URL and client address
  are only compared, and are Lean strings;
* `time.Time` and `time.Duration` are integers counting nanoseconds; a
  `time.Time` inside a user response is the RFC 3339 text it is encoded as;
* the `float64` arithmetic of `rate.Limiter` is carried out over exact
  rationals (no rounding), conversions to `time.Duration` truncate;
* a Go panic is the error branch of `Except String`; a Go `error` value is its
  message;
* package-level variables (`clients`, `cfg`, `redisClient`, `cacheCfg`) and the
  clock are fields of the state `Ctx` that a handler transforms;
* `c.Next()` is the first argument of a middleware; a user handler is given what
  `gin` extracts from the request and returns the calls it made on the service.
-/

namespace ApiGateway

/-- A Go byte string. -/
abbrev Bytes := List Nat

/-- The bytes of an ASCII literal. -/
def str (s : String) : Bytes := s.toList.map Char.toNat

def maxInt64 : Int := 9223372036854775807

def minInt64 : Int := -9223372036854775808

/-- Two's-complement wrap-around of a 64-bit signed result. -/
def wrapInt64 (x : Int) : Int :=
  (x + 9223372036854775808) % 18446744073709551616 - 9223372036854775808

/-- Go's integer division `a / b` on `int64`: truncated, panics on a zero divisor. -/
def goDiv (a b : Int) : Except String Int :=
  if b = 0 then Except.error "runtime error: integer divide by zero"
  else Except.ok (wrapInt64 (Int.tdiv a b))

instance instDecidableEqExcept {ε α : Type} [DecidableEq ε] [DecidableEq α] :
    DecidableEq (Except ε α)
  | Except.ok a, Except.ok b =>
    if h : a = b then isTrue (by rw [h]) else isFalse (fun h1 => h (by cases h1; rfl))
  | Except.error a, Except.error b =>
    if h : a = b then isTrue (by rw [h]) else isFalse (fun h1 => h (by cases h1; rfl))
  | Except.ok _, Except.error _ => isFalse (fun h => by cases h)
  | Except.error _, Except.ok _ => isFalse (fun h => by cases h)

/-- Conversion of a `float64` to `int64`: truncation toward zero. -/
def truncate (q : ℚ) : Int := Int.tdiv q.num q.den

/-! ## package time -/

namespace time

def Second : Int := 1000000000

def Minute : Int := 60 * Second

/-- `Duration.Seconds`. -/
def Seconds (d : Int) : ℚ := (d : ℚ) / 1000000000

/-- `Time.Sub`: the difference, saturated to the range of `Duration`. -/
def Sub (t u : Int) : Int := max minInt64 (min maxInt64 (t - u))

end time

/-! ## package golang.org/x/time/rate

The token bucket behind `limiter.Allow()`. Limits and token counts are `float64`
in Go; here they are rationals and every operation is exact. -/

namespace rate

/-- `rate.Inf = Limit(math.MaxFloat64)`. -/
def Inf : ℚ := (2 ^ 53 - 1) * 2 ^ 971

/-- `rate.InfDuration`. -/
def InfDuration : Int := maxInt64

/-- `rate.Every`: the limit of one event per `interval`. -/
def Every (interval : Int) : ℚ :=
  if interval ≤ 0 then Inf else 1 / time.Seconds interval

/-- `Limit.tokensFromDuration`. -/
def tokensFromDuration (limit : ℚ) (d : Int) : ℚ :=
  if limit ≤ 0 then 0 else time.Seconds d * limit

/-- `Limit.durationFromTokens`. -/
def durationFromTokens (limit : ℚ) (tokens : ℚ) : Int :=
  if limit ≤ 0 then InfDuration
  else
    let duration := tokens / limit * (time.Second : ℚ)
    if duration > (maxInt64 : ℚ) then InfDuration else truncate duration

/-- `rate.Limiter` (the mutex and `lastEvent`, which `Allow` only writes, are left out). -/
structure Limiter where
  limit : ℚ
  burst : Int
  tokens : ℚ
  last : Int
deriving DecidableEq

/-- `rate.NewLimiter`: a bucket of size `b`, initially full; `last` is the zero time. -/
def NewLimiter (r : ℚ) (b : Int) : Limiter :=
  { limit := r, burst := b, tokens := b, last := 0 }

/-- `Limiter.advance`: the number of tokens at time `t`. -/
def Limiter.advance (lim : Limiter) (t : Int) : ℚ :=
  let last := if t < lim.last then t else lim.last
  let elapsed := time.Sub t last
  let delta := tokensFromDuration lim.limit elapsed
  let tokens := lim.tokens + delta
  if (lim.burst : ℚ) < tokens then (lim.burst : ℚ) else tokens

/-- `Limiter.reserveN`, returning `ok` and the limiter after the call. -/
def Limiter.reserveN (lim : Limiter) (t : Int) (n : Int) (maxFutureReserve : Int) :
    Bool × Limiter :=
  if lim.limit = Inf then (true, lim)
  else if lim.limit = 0 then
    if lim.burst ≥ n then (true, { lim with burst := lim.burst - n }) else (false, lim)
  else
    let tokens := lim.advance t - (n : ℚ)
    let waitDuration := if tokens < 0 then durationFromTokens lim.limit (-tokens) else 0
    if n ≤ lim.burst ∧ waitDuration ≤ maxFutureReserve then
      (true, { lim with last := t, tokens := tokens })
    else (false, lim)

/-- `Limiter.Allow` at time `now`: `AllowN(now, 1)`, that is `reserveN(now, 1, 0).ok`. -/
def Limiter.Allow (lim : Limiter) (now : Int) : Bool × Limiter :=
  lim.reserveN now 1 0

end rate

/-! ## package config -/

structure RateLimitConfig where
  RequestsPerMinute : Int
  BurstSize : Int
  CleanupInterval : Int
deriving DecidableEq

structure CacheConfig where
  Duration : Int
deriving DecidableEq

/-! ## net/http headers -/

/-- `http.Header`, a map from names to value lists, kept as an association list
with distinct names. -/
abbrev Header := List (Bytes × List Bytes)

def Header.get (h : Header) (key : Bytes) : List Bytes :=
  match h.lookup key with
  | some v => v
  | none => []

/-- Assignment `h[key] = values`. -/
def Header.put : Header → Bytes → List Bytes → Header
  | [], key, values => [(key, values)]
  | (k, v) :: rest, key, values =>
    if k = key then (k, values) :: rest else (k, v) :: Header.put rest key values

def isTokenByte (b : Nat) : Bool :=
  (48 ≤ b && b ≤ 57) || (65 ≤ b && b ≤ 90) || (97 ≤ b && b ≤ 122) ||
  b ∈ [33, 35, 36, 37, 38, 39, 42, 43, 45, 46, 94, 95, 96, 124, 126]

/-- The letter-case pass of `textproto.CanonicalMIMEHeaderKey`. -/
def canonicalLoop : Bool → Bytes → Bytes
  | _, [] => []
  | upper, b :: rest =>
    let b1 := if upper && 97 ≤ b && b ≤ 122 then b - 32
              else if !upper && 65 ≤ b && b ≤ 90 then b + 32 else b
    b1 :: canonicalLoop (b1 = 45) rest

/-- `textproto.CanonicalMIMEHeaderKey`: names with a byte that is no token
character are returned unchanged. -/
def CanonicalMIMEHeaderKey (s : Bytes) : Bytes :=
  if s.all isTokenByte then canonicalLoop true s else s

/-- `Header.Add`: appends `value` to the values of the canonical form of `key`. -/
def Header.Add (h : Header) (key value : Bytes) : Header :=
  let k := CanonicalMIMEHeaderKey key
  h.put k (h.get k ++ [value])

/-! ## gin: the response writer -/

/-- The concrete `gin` response writer (`c.writermem`), with what it has passed
on to `net/http`: `wroteHeader` is the status line and header block sent by
`WriteHeaderNow`, `sink` the chunks handed to the underlying `Write`, in order. -/
structure ginWriter where
  header : Header
  status : Int
  size : Int
  wroteHeader : Option (Int × Header)
  sink : List Bytes
deriving DecidableEq

def noWritten : Int := -1

def defaultStatus : Int := 200

/-- The state of the writer after `responseWriter.reset`. -/
def ginWriter.reset (header : Header) : ginWriter :=
  { header := header, status := defaultStatus, size := noWritten, wroteHeader := none, sink := [] }

def ginWriter.Written (w : ginWriter) : Bool := w.size != noWritten

def ginWriter.WriteHeader (w : ginWriter) (code : Int) : ginWriter :=
  if code > 0 ∧ w.status ≠ code then
    if w.Written then w else { w with status := code }
  else w

def ginWriter.WriteHeaderNow (w : ginWriter) : ginWriter :=
  if !w.Written then { w with size := 0, wroteHeader := some (w.status, w.header) } else w

def ginWriter.Write (w : ginWriter) (data : Bytes) : ginWriter :=
  let w1 := w.WriteHeaderNow
  { w1 with sink := w1.sink ++ [data], size := w1.size + data.length }

def ginWriter.WriteString (w : ginWriter) (s : Bytes) : ginWriter :=
  let w1 := w.WriteHeaderNow
  { w1 with sink := w1.sink ++ [s], size := w1.size + s.length }

/-! ## go-redis -/

structure RedisEntry where
  value : Bytes
  expireAt : Option Int
deriving DecidableEq

inductive RedisCmd where
  | get (key : String)
  | set (key : String) (value : Bytes) (expiration : Int)
deriving DecidableEq

/-- A `redis.Client` with the server behind it: the keyspace, whether commands
reach the server, and the commands issued so far (oldest first). -/
structure RedisClient where
  entries : List (String × RedisEntry)
  reachable : Bool
  cmds : List RedisCmd
deriving DecidableEq

inductive RedisResult where
  | ok (val : Bytes)
  | nil
  | err
deriving DecidableEq

def RedisEntry.live (e : RedisEntry) (now : Int) : Bool :=
  match e.expireAt with
  | none => true
  | some t => now < t

/-- The command `Get(ctx, key).Result()` at time `now`. -/
def RedisClient.Get (r : RedisClient) (key : String) (now : Int) : RedisResult × RedisClient :=
  let r1 := { r with cmds := r.cmds ++ [RedisCmd.get key] }
  if r.reachable then
    match r.entries.lookup key with
    | some e => if e.live now then (RedisResult.ok e.value, r1) else (RedisResult.nil, r1)
    | none => (RedisResult.nil, r1)
  else (RedisResult.err, r1)

/-- The command `Set(ctx, key, value, expiration)` at time `now`: only a positive
expiration gives the key a time to live. -/
def RedisClient.Set (r : RedisClient) (key : String) (value : Bytes) (expiration : Int)
    (now : Int) : RedisClient :=
  let r1 := { r with cmds := r.cmds ++ [RedisCmd.set key value expiration] }
  if r.reachable then
    let e : RedisEntry :=
      { value := value, expireAt := if expiration > 0 then some (now + expiration) else none }
    { r1 with entries := (key, e) :: r.entries.filter (fun kv => kv.1 != key) }
  else r1

/-! ## gin: the context -/

/-- The `url.URL` of a server request, parsed from a request target in origin
form: no scheme, no host, no user, no fragment. `Path` is the path as
`EscapedPath()` gives it and starts with `/`; `ForceQuery` is set for a target
that ends in a bare `?`. -/
structure URL where
  Path : String
  RawQuery : String
  ForceQuery : Bool := false
deriving DecidableEq

/-- `URL.String` of the request target of a server request (no scheme, no host). -/
def URL.String (u : URL) : String :=
  if u.ForceQuery ∨ u.RawQuery ≠ "" then u.Path ++ "?" ++ u.RawQuery else u.Path

structure Request where
  Method : String
  URL : URL
deriving DecidableEq

/-- The limiter and last-seen time of one client. -/
structure client where
  limiter : rate.Limiter
  lastSeen : Int
deriving DecidableEq

/-- The state a handler works on: the `gin.Context` of the request, the
package-level variables of `middleware`, and the clock.

`Writer` is the value of `c.Writer`: the chain of capturing `responseWriter`
wrappers around `writermem`, outermost first, each named by the index of its
`body` buffer in `buffers`. -/
structure Ctx where
  Request : Request
  ClientIP : String
  writermem : ginWriter
  Writer : List Nat
  buffers : List Bytes
  index : Int
  clients : String → Option client
  cfg : Option RateLimitConfig
  redisClient : Option RedisClient
  cacheCfg : Option CacheConfig
  now : Int

/-- A `gin.HandlerFunc`; its first argument is `c.Next`. -/
abbrev HandlerFunc := (Ctx → Except String Ctx) → Ctx → Except String Ctx

def abortIndex : Int := 63

def Ctx.Abort (c : Ctx) : Ctx := { c with index := abortIndex }

def Ctx.IsAborted (c : Ctx) : Bool := c.index ≥ abortIndex

/-- The loop of `Context.Next`. -/
def nextLoop (handlers : List HandlerFunc) : Nat → Ctx → Except String Ctx
  | 0, _ => Except.error "out of fuel"
  | fuel + 1, c =>
    if c.index < handlers.length then
      match handlers.get? c.index.toNat with
      | some h =>
        match h (fun c1 => nextLoop handlers fuel { c1 with index := c1.index + 1 }) c with
        | Except.ok c2 => nextLoop handlers fuel { c2 with index := c2.index + 1 }
        | Except.error e => Except.error e
      | none => Except.ok c
    else Except.ok c

/-- `Context.Next` for the handler chain `handlers`. -/
def Next (handlers : List HandlerFunc) (fuel : Nat) (c : Ctx) : Except String Ctx :=
  nextLoop handlers fuel { c with index := c.index + 1 }

/-- Appends `b` to the buffer at index `i`. -/
def appendAt : List Bytes → Nat → Bytes → List Bytes
  | [], _, _ => []
  | x :: xs, 0, b => (x ++ b) :: xs
  | x :: xs, i + 1, b => x :: appendAt xs i b

/-- `responseWriter.Write` of the capturing wrapper whose `body` is the buffer
`w`, around a writer whose `Write` is `inner`: `w.body.Write(b)`, then
`w.ResponseWriter.Write(b)`. -/
def responseWriter.Write (w : Nat) (inner : Ctx → Bytes → Ctx) (c : Ctx) (b : Bytes) : Ctx :=
  inner { c with buffers := appendAt c.buffers w b } b

/-- `Write` of the writer given by a chain of wrappers: the `Write` of `gin` for
the empty chain, `responseWriter.Write` for a wrapper. -/
def writerWrite : List Nat → Ctx → Bytes → Ctx
  | [] => fun c b => { c with writermem := c.writermem.Write b }
  | w :: inner => responseWriter.Write w (writerWrite inner)

/-- `c.Writer.Write(b)`. -/
def Ctx.Write (c : Ctx) (b : Bytes) : Ctx := writerWrite c.Writer c b

/-- `c.Writer.WriteString(s)`: `responseWriter` does not define `WriteString`, so
on every wrapper the call is the promoted method of the writer it wraps, and
ends at the `WriteString` of `gin`. -/
def Ctx.WriteString (c : Ctx) (s : Bytes) : Ctx :=
  { c with writermem := c.writermem.WriteString s }

def Ctx.WriteHeader (c : Ctx) (code : Int) : Ctx :=
  { c with writermem := c.writermem.WriteHeader code }

def Ctx.Status (c : Ctx) : Int := c.writermem.status

def bodyAllowedForStatus (status : Int) : Bool :=
  if 100 ≤ status ∧ status ≤ 199 then false
  else if status = 204 then false
  else if status = 304 then false
  else true

def jsonContentType : List Bytes := [str "application/json; charset=utf-8"]

/-- The function `writeContentType` of `gin/render`. -/
def writeContentType (c : Ctx) (value : List Bytes) : Ctx :=
  if (c.writermem.header.get (str "Content-Type")).length = 0 then
    { c with writermem :=
        { c.writermem with header := c.writermem.header.put (str "Content-Type") value } }
  else c

/-- `c.JSON(code, obj)`, given the bytes `jsonBytes` that `json.Marshal(obj)` returns. -/
def Ctx.JSON (c : Ctx) (code : Int) (jsonBytes : Bytes) : Ctx :=
  let c1 := c.WriteHeader code
  if !bodyAllowedForStatus code then
    let c2 := writeContentType c1 jsonContentType
    { c2 with writermem := c2.writermem.WriteHeaderNow }
  else
    (writeContentType c1 jsonContentType).Write jsonBytes

/-! ## middleware/ratelimit.go -/

/-- Map assignment `clients[ip] = v`. -/
def setClient (clients : String → Option client) (ip : String) (v : client) :
    String → Option client :=
  fun k => if k = ip then some v else clients k

/-- `getClientLimiter`: the limiter of `ip` (the one stored, or a new one that is
stored), and the state after the call. -/
def getClientLimiter (c : Ctx) (ip : String) : Except String (rate.Limiter × Ctx) :=
  match c.clients ip with
  | some cl =>
    Except.ok (cl.limiter, { c with clients := setClient c.clients ip { cl with lastSeen := c.now } })
  | none =>
    match c.cfg with
    | none => Except.error "runtime error: invalid memory address or nil pointer dereference"
    | some cfg =>
      match goDiv time.Minute cfg.RequestsPerMinute with
      | Except.error e => Except.error e
      | Except.ok interval =>
        let limiter := rate.NewLimiter (rate.Every interval) cfg.BurstSize
        Except.ok (limiter,
          { c with clients := setClient c.clients ip { limiter := limiter, lastSeen := c.now } })

/-- The limiter returned by `getClientLimiter` is a pointer shared with the
registry entry: the state `limiter.Allow()` leaves is the state of that entry. -/
def storeLimiter (c : Ctx) (ip : String) (lim : rate.Limiter) : Ctx :=
  match c.clients ip with
  | some cl => { c with clients := setClient c.clients ip { cl with limiter := lim } }
  | none => c

/-- The body of the rate-limit rejection, `json.Marshal` of
`gin.H{"error": "Too many requests. Please try again later."}`. -/
def tooManyRequestsBody : Bytes :=
  str "\x7b\"error\":\"Too many requests. Please try again later.\"\x7d"

def StatusTooManyRequests : Int := 429

/-- The handler returned by `RateLimit()`. -/
def RateLimit : HandlerFunc := fun next c =>
  match c.cfg with
  | none => next c
  | some _ =>
    let ip := c.ClientIP
    match getClientLimiter c ip with
    | Except.error e => Except.error e
    | Except.ok (limiter, c1) =>
      let (ok, limiter1) := limiter.Allow c1.now
      let c2 := storeLimiter c1 ip limiter1
      if !ok then
        Except.ok (c2.JSON StatusTooManyRequests tooManyRequestsBody).Abort
      else next c2

/-! ## encoding/json, for the cached envelope -/

/-- The anonymous struct that `Cache` marshals and unmarshals:
`Status int`, `Header http.Header`, `Data string`, with the JSON names
`status`, `header`, `data`. A nil `Header` is the empty list. -/
structure Cached where
  Status : Int
  Header : Header
  Data : Bytes
deriving DecidableEq

def RuneError : Nat := 65533

def isCont (b : Nat) : Bool := 128 ≤ b && b ≤ 191

/-- `utf8.DecodeRune`: the first rune of `s` and its width; an invalid or short
encoding gives `(RuneError, 1)`. -/
def decodeRune : Bytes → Nat × Nat
  | [] => (RuneError, 0)
  | b0 :: rest =>
    if b0 < 128 then (b0, 1)
    else if 194 ≤ b0 && b0 ≤ 223 then
      match rest with
      | b1 :: _ => if isCont b1 then ((b0 % 32) * 64 + b1 % 64, 2) else (RuneError, 1)
      | _ => (RuneError, 1)
    else if 224 ≤ b0 && b0 ≤ 239 then
      match rest with
      | b1 :: b2 :: _ =>
        let lo := if b0 = 224 then 160 else 128
        let hi := if b0 = 237 then 159 else 191
        if lo ≤ b1 && b1 ≤ hi && isCont b2 then
          ((b0 % 16) * 4096 + (b1 % 64) * 64 + b2 % 64, 3)
        else (RuneError, 1)
      | _ => (RuneError, 1)
    else if 240 ≤ b0 && b0 ≤ 244 then
      match rest with
      | b1 :: b2 :: b3 :: _ =>
        let lo := if b0 = 240 then 144 else 128
        let hi := if b0 = 244 then 143 else 191
        if lo ≤ b1 && b1 ≤ hi && isCont b2 && isCont b3 then
          ((b0 % 8) * 262144 + (b1 % 64) * 4096 + (b2 % 64) * 64 + b3 % 64, 4)
        else (RuneError, 1)
      | _ => (RuneError, 1)
    else (RuneError, 1)

/-- `utf8.EncodeRune`: surrogates and values past U+10FFFF are encoded as U+FFFD. -/
def encodeRune (r : Nat) : Bytes :=
  if r < 128 then [r]
  else if r < 2048 then [192 + r / 64, 128 + r % 64]
  else if (55296 ≤ r && r ≤ 57343) || 1114111 < r then [239, 191, 189]
  else if r < 65536 then [224 + r / 4096, 128 + (r / 64) % 64, 128 + r % 64]
  else [240 + r / 262144, 128 + (r / 4096) % 64, 128 + (r / 64) % 64, 128 + r % 64]

def hexDigit (n : Nat) : Nat := if n < 10 then 48 + n else 87 + n

/-- The table `htmlSafeSet`: the ASCII bytes that `json.Marshal` copies unescaped. -/
def htmlSafe (b : Nat) : Bool :=
  32 ≤ b && b < 128 && b != 34 && b != 92 && b != 60 && b != 62 && b != 38

/-- The loop of `appendString` with `escapeHTML` set, over the bytes still to encode. -/
def appendStringLoop : Nat → Bytes → Bytes
  | 0, _ => []
  | _ + 1, [] => []
  | fuel + 1, b :: rest =>
    if b < 128 then
      if htmlSafe b then b :: appendStringLoop fuel rest
      else if b = 92 ∨ b = 34 then 92 :: b :: appendStringLoop fuel rest
      else if b = 8 then 92 :: 98 :: appendStringLoop fuel rest
      else if b = 12 then 92 :: 102 :: appendStringLoop fuel rest
      else if b = 10 then 92 :: 110 :: appendStringLoop fuel rest
      else if b = 13 then 92 :: 114 :: appendStringLoop fuel rest
      else if b = 9 then 92 :: 116 :: appendStringLoop fuel rest
      else 92 :: 117 :: 48 :: 48 :: hexDigit (b / 16) :: hexDigit (b % 16) ::
        appendStringLoop fuel rest
    else
      let (c, size) := decodeRune (b :: rest)
      if c = RuneError ∧ size = 1 then
        92 :: 117 :: 102 :: 102 :: 102 :: 100 :: appendStringLoop fuel rest
      else if c = 8232 ∨ c = 8233 then
        92 :: 117 :: 50 :: 48 :: 50 :: hexDigit (c % 16) ::
          appendStringLoop fuel (rest.drop (size - 1))
      else (b :: rest).take size ++ appendStringLoop fuel (rest.drop (size - 1))

/-- `appendString`: the JSON string literal for the Go string `src`. -/
def appendString (src : Bytes) : Bytes :=
  34 :: appendStringLoop src.length src ++ [34]

def natDigits : Nat → Nat → Bytes
  | 0, _ => []
  | fuel + 1, n => if n < 10 then [48 + n] else natDigits fuel (n / 10) ++ [48 + n % 10]

/-- `strconv.AppendInt(_, n, 10)`. -/
def appendInt (n : Int) : Bytes :=
  if n < 0 then 45 :: natDigits (n.natAbs + 1) n.natAbs else natDigits (n.natAbs + 1) n.natAbs

/-- Lexicographic order on byte strings (`strings.Compare(a, b) <= 0`). -/
def bytesLe : Bytes → Bytes → Bool
  | [], _ => true
  | _ :: _, [] => false
  | a :: as, b :: bs => if a < b then true else if b < a then false else bytesLe as bs

def insertSorted (kv : Bytes × List Bytes) : Header → Header
  | [] => [kv]
  | x :: xs => if bytesLe kv.1 x.1 then kv :: x :: xs else x :: insertSorted kv xs

/-- Map entries in the order `json.Marshal` writes them: sorted by key. -/
def sortHeader (h : Header) : Header := h.foldr insertSorted []

def joinComma : List Bytes → Bytes
  | [] => []
  | [x] => x
  | x :: y :: rest => x ++ 44 :: joinComma (y :: rest)

/-- The encoding of a `[]string`: `null` for the nil slice. -/
def marshalStrings (v : List Bytes) : Bytes :=
  if v.isEmpty then str "null" else 91 :: joinComma (v.map appendString) ++ [93]

/-- The encoding of a non-nil `http.Header`. -/
def marshalHeader (h : Header) : Bytes :=
  123 :: joinComma ((sortHeader h).map
    (fun kv => appendString kv.1 ++ 58 :: marshalStrings kv.2)) ++ [125]

/-- `json.Marshal` of the envelope; it cannot fail on this type. -/
def jsonMarshal (v : Cached) : Bytes :=
  str "\x7b\"status\":" ++ appendInt v.Status ++ str ",\"header\":" ++ marshalHeader v.Header ++
    str ",\"data\":" ++ appendString v.Data ++ [125]

/-- Skips JSON white space (space, tab, line feed, carriage return). -/
def skipWS : Bytes → Bytes
  | [] => []
  | b :: rest => if b = 32 ∨ b = 9 ∨ b = 10 ∨ b = 13 then skipWS rest else b :: rest

def hexVal (b : Nat) : Option Nat :=
  if 48 ≤ b ∧ b ≤ 57 then some (b - 48)
  else if 97 ≤ b ∧ b ≤ 102 then some (b - 87)
  else if 65 ≤ b ∧ b ≤ 70 then some (b - 55)
  else none

/-- Four hexadecimal digits at the head of `s`. -/
def hex4 : Bytes → Option (Nat × Bytes)
  | a :: b :: c :: d :: rest =>
    match hexVal a, hexVal b, hexVal c, hexVal d with
    | some x, some y, some z, some w => some (x * 4096 + y * 256 + z * 16 + w, rest)
    | _, _, _, _ => none
  | _ => none

/-- The function `getu4`: the rune of an escape `\uXXXX` at the head of `s`. -/
def getu4 : Bytes → Option (Nat × Bytes)
  | 92 :: 117 :: rest => hex4 rest
  | _ => none

/-- A JSON string literal after its opening quote: the Go string it denotes
(`unquote`) and the input after the closing quote; `none` when the scanner
rejects the literal. -/
def scanString : Nat → Bytes → Option (Bytes × Bytes)
  | 0, _ => none
  | _ + 1, [] => none
  | fuel + 1, c :: rest =>
    if c = 34 then some ([], rest)
    else if c = 92 then
      match rest with
      | [] => none
      | e :: rest1 =>
        if e = 117 then
          match hex4 rest1 with
          | none => none
          | some (rr, rest2) =>
            if 55296 ≤ rr ∧ rr ≤ 57343 then
              match getu4 rest2 with
              | some (rr1, rest3) =>
                if rr < 56320 ∧ 56320 ≤ rr1 ∧ rr1 ≤ 57343 then
                  (scanString fuel rest3).map
                    (fun p => (encodeRune ((rr - 55296) * 1024 + (rr1 - 56320) + 65536) ++ p.1, p.2))
                else (scanString fuel rest2).map (fun p => (encodeRune RuneError ++ p.1, p.2))
              | none => (scanString fuel rest2).map (fun p => (encodeRune RuneError ++ p.1, p.2))
            else (scanString fuel rest2).map (fun p => (encodeRune rr ++ p.1, p.2))
        else
          let plain : Option Nat :=
            if e = 34 ∨ e = 92 ∨ e = 47 then some e
            else if e = 98 then some 8
            else if e = 102 then some 12
            else if e = 110 then some 10
            else if e = 114 then some 13
            else if e = 116 then some 9
            else none
          match plain with
          | none => none
          | some b => (scanString fuel rest1).map (fun p => (b :: p.1, p.2))
    else if c < 32 then none
    else if c < 128 then (scanString fuel rest).map (fun p => (c :: p.1, p.2))
    else
      let (rr, size) := decodeRune (c :: rest)
      (scanString fuel (rest.drop (size - 1))).map (fun p => (encodeRune rr ++ p.1, p.2))

def isDigit (b : Nat) : Bool := 48 ≤ b && b ≤ 57

/-- A non-empty run of digits at the head of `s`. -/
def scanDigits (s : Bytes) : Option (Bytes × Bytes) :=
  let ds := s.takeWhile isDigit
  if ds.isEmpty then none else some (ds, s.dropWhile isDigit)

/-- A JSON number at the head of `s`: its literal and the input after it. -/
def scanNumber (s : Bytes) : Option (Bytes × Bytes) :=
  let (sign, s1) := match s with
    | 45 :: r => ([45], r)
    | r => ([], r)
  let intPart : Option (Bytes × Bytes) := match s1 with
    | 48 :: r => some ([48], r)
    | r => scanDigits r
  match intPart with
  | none => none
  | some (ip, s2) =>
    let frac : Option (Bytes × Bytes) := match s2 with
      | 46 :: r => (scanDigits r).map (fun p => (46 :: p.1, p.2))
      | r => some ([], r)
    match frac with
    | none => none
    | some (fp, s3) =>
      let exp : Option (Bytes × Bytes) := match s3 with
        | e :: r =>
          if e = 101 ∨ e = 69 then
            match r with
            | sg :: r1 =>
              if sg = 43 ∨ sg = 45 then (scanDigits r1).map (fun p => (e :: sg :: p.1, p.2))
              else (scanDigits r).map (fun p => (e :: p.1, p.2))
            | [] => none
          else some ([], s3)
        | [] => some ([], s3)
      match exp with
      | none => none
      | some (ep, s4) => some (sign ++ ip ++ fp ++ ep, s4)

def stripLiteral (lit : Bytes) (s : Bytes) : Option Bytes :=
  if lit.isPrefixOf s then some (s.drop lit.length) else none

/-- What the skipping scanner expects next. -/
inductive SkipMode where
  | value
  | elements
  | members
deriving DecidableEq

/-- Skips one JSON value (`value`), the elements of an array after its first
element was found to begin (`elements`), or the members of an object likewise
(`members`); `none` when the input is not valid JSON. -/
def skipJSON : Nat → SkipMode → Bytes → Option Bytes
  | 0, _, _ => none
  | fuel + 1, SkipMode.value, s =>
    match skipWS s with
    | [] => none
    | c :: rest =>
      if c = 34 then (scanString (rest.length + 1) rest).map (fun p => p.2)
      else if c = 123 then
        match skipWS rest with
        | 125 :: r => some r
        | r => skipJSON fuel SkipMode.members r
      else if c = 91 then
        match skipWS rest with
        | 93 :: r => some r
        | r => skipJSON fuel SkipMode.elements r
      else if c = 116 then stripLiteral (str "true") (c :: rest)
      else if c = 102 then stripLiteral (str "false") (c :: rest)
      else if c = 110 then stripLiteral (str "null") (c :: rest)
      else (scanNumber (c :: rest)).map (fun p => p.2)
  | fuel + 1, SkipMode.elements, s =>
    match skipJSON fuel SkipMode.value s with
    | none => none
    | some r =>
      match skipWS r with
      | 44 :: r1 => skipJSON fuel SkipMode.elements r1
      | 93 :: r1 => some r1
      | _ => none
  | fuel + 1, SkipMode.members, s =>
    match skipWS s with
    | 34 :: r =>
      match scanString (r.length + 1) r with
      | none => none
      | some (_, r1) =>
        match skipWS r1 with
        | 58 :: r2 =>
          match skipJSON fuel SkipMode.value r2 with
          | none => none
          | some r3 =>
            match skipWS r3 with
            | 44 :: r4 => skipJSON fuel SkipMode.members r4
            | 125 :: r4 => some r4
            | _ => none
        | _ => none
    | _ => none

def digitsValue (ds : Bytes) : Nat := ds.foldl (fun acc d => acc * 10 + (d - 48)) 0

/-- `strconv.ParseInt(lit, 10, 64)` on a JSON number literal: fails on a
fraction, an exponent, or a value outside `int64`. -/
def parseInt64 (lit : Bytes) : Option Int :=
  let (neg, ds) := match lit with
    | 45 :: r => (true, r)
    | r => (false, r)
  if ds.isEmpty ∨ !ds.all isDigit then none
  else
    let n : Int := if neg then -(digitsValue ds : Int) else (digitsValue ds : Int)
    if minInt64 ≤ n ∧ n ≤ maxInt64 then some n else none

/-- Decodes a JSON value into an `int` field holding `cur`. -/
def decodeInt (cur : Int) (s : Bytes) : Option (Int × Bytes) :=
  match skipWS s with
  | [] => none
  | c :: rest =>
    if c = 110 then (stripLiteral (str "null") (c :: rest)).map (fun r => (cur, r))
    else if c = 45 ∨ isDigit c then
      match scanNumber (c :: rest) with
      | none => none
      | some (lit, r) => (parseInt64 lit).map (fun n => (n, r))
    else none

/-- Decodes a JSON value into a `string` holding `cur`. -/
def decodeString (cur : Bytes) (s : Bytes) : Option (Bytes × Bytes) :=
  match skipWS s with
  | [] => none
  | c :: rest =>
    if c = 110 then (stripLiteral (str "null") (c :: rest)).map (fun r => (cur, r))
    else if c = 34 then scanString (rest.length + 1) rest
    else none

/-- The elements of a JSON array decoded into a `[]string`, from the start of
an element. -/
def decodeStringElements : Nat → Bytes → Option (List Bytes × Bytes)
  | 0, _ => none
  | fuel + 1, s =>
    match decodeString [] s with
    | none => none
    | some (v, r) =>
      match skipWS r with
      | 44 :: r1 => (decodeStringElements fuel r1).map (fun p => (v :: p.1, p.2))
      | 93 :: r1 => some ([v], r1)
      | _ => none

/-- Decodes a JSON value into a new `[]string`. -/
def decodeStrings (s : Bytes) : Option (List Bytes × Bytes) :=
  match skipWS s with
  | [] => none
  | c :: rest =>
    if c = 110 then (stripLiteral (str "null") (c :: rest)).map (fun r => ([], r))
    else if c = 91 then
      match skipWS rest with
      | 93 :: r => some ([], r)
      | r => decodeStringElements (r.length + 1) r
    else none

/-- The members of a JSON object decoded into the map `cur`, from the start of
a member. -/
def decodeHeaderMembers : Nat → Header → Bytes → Option (Header × Bytes)
  | 0, _, _ => none
  | fuel + 1, cur, s =>
    match skipWS s with
    | 34 :: r =>
      match scanString (r.length + 1) r with
      | none => none
      | some (key, r1) =>
        match skipWS r1 with
        | 58 :: r2 =>
          match decodeStrings r2 with
          | none => none
          | some (v, r3) =>
            match skipWS r3 with
            | 44 :: r4 => decodeHeaderMembers fuel (cur.put key v) r4
            | 125 :: r4 => some (cur.put key v, r4)
            | _ => none
        | _ => none
    | _ => none

/-- Decodes a JSON value into an `http.Header` holding `cur`. -/
def decodeHeader (cur : Header) (s : Bytes) : Option (Header × Bytes) :=
  match skipWS s with
  | [] => none
  | c :: rest =>
    if c = 110 then (stripLiteral (str "null") (c :: rest)).map (fun r => ([], r))
    else if c = 123 then
      match skipWS rest with
      | 125 :: r => some (cur, r)
      | r => decodeHeaderMembers (r.length + 1) cur r
    else none

/-- The loop of `foldName`: ASCII letters to upper case, and the two runes whose
case folding reaches an ASCII letter (U+017F, U+212A) to that letter. -/
def foldNameLoop : Nat → Bytes → Bytes
  | 0, _ => []
  | _ + 1, [] => []
  | fuel + 1, b :: rest =>
    if b < 128 then
      (if 97 ≤ b ∧ b ≤ 122 then b - 32 else b) :: foldNameLoop fuel rest
    else
      let (r, n) := decodeRune (b :: rest)
      if r = 383 then 83 :: foldNameLoop fuel (rest.drop (n - 1))
      else if r = 8490 then 75 :: foldNameLoop fuel (rest.drop (n - 1))
      else (b :: rest).take n ++ foldNameLoop fuel (rest.drop (n - 1))

def foldName (s : Bytes) : Bytes := foldNameLoop s.length s

/-- The struct field a JSON object key selects: by its exact name, else by its
folded name. -/
def fieldOf (key : Bytes) : Option String :=
  if foldName key = str "STATUS" then some "status"
  else if foldName key = str "HEADER" then some "header"
  else if foldName key = str "DATA" then some "data"
  else none

/-- The members of a JSON object decoded into the envelope `cur`, from the start
of a member; an unknown key has its value skipped. -/
def decodeMembers : Nat → Cached → Bytes → Option (Cached × Bytes)
  | 0, _, _ => none
  | fuel + 1, cur, s =>
    match skipWS s with
    | 34 :: r =>
      match scanString (r.length + 1) r with
      | none => none
      | some (key, r1) =>
        match skipWS r1 with
        | 58 :: r2 =>
          let field : Option (Cached × Bytes) :=
            match fieldOf key with
            | some "status" => (decodeInt cur.Status r2).map (fun p => ({ cur with Status := p.1 }, p.2))
            | some "header" => (decodeHeader cur.Header r2).map (fun p => ({ cur with Header := p.1 }, p.2))
            | some "data" => (decodeString cur.Data r2).map (fun p => ({ cur with Data := p.1 }, p.2))
            | _ => (skipJSON (r2.length + 1) SkipMode.value r2).map (fun r3 => (cur, r3))
          match field with
          | none => none
          | some (cur1, r3) =>
            match skipWS r3 with
            | 44 :: r4 => decodeMembers fuel cur1 r4
            | 125 :: r4 => some (cur1, r4)
            | _ => none
        | _ => none
    | _ => none

/-- `json.Unmarshal(data, &cached)` on a zero envelope: `none` stands for a
returned error (a syntax error, or a value of the wrong JSON type for its field). -/
def jsonUnmarshal (data : Bytes) : Option Cached :=
  let zero : Cached := { Status := 0, Header := [], Data := [] }
  let res : Option (Cached × Bytes) :=
    match skipWS data with
    | [] => none
    | c :: rest =>
      if c = 110 then (stripLiteral (str "null") (c :: rest)).map (fun r => (zero, r))
      else if c = 123 then
        match skipWS rest with
        | 125 :: r => some (zero, r)
        | r => decodeMembers (r.length + 1) zero r
      else none
  match res with
  | none => none
  | some (v, r) => if (skipWS r).isEmpty then some v else none

/-! ## middleware/cache.go -/

def MethodGet : String := "GET"

/-- The loops `for k, v := range cached.Header { for _, vv := range v {
c.Writer.Header().Add(k, vv) } }` over the stored header (Go leaves the order of
the outer loop open; the model takes the entries in list order). -/
def addHeaders (h : Header) (stored : Header) : Header :=
  stored.foldl (fun h1 kv => kv.2.foldl (fun h2 vv => h2.Add kv.1 vv) h1) h

/-- `time.Duration(cacheCfg.Duration) * time.Second`. -/
def cacheExpiration (cc : CacheConfig) : Int := wrapInt64 (cc.Duration * time.Second)

def nilDereference : String := "runtime error: invalid memory address or nil pointer dereference"

/-- The handler returned by `Cache()`. -/
def Cache : HandlerFunc := fun next c =>
  if c.Request.Method ≠ MethodGet then next c
  else
    match c.redisClient with
    | none => next c
    | some rc =>
      let key := c.Request.URL.String
      let (res, rc1) := rc.Get key c.now
      let c1 := { c with redisClient := some rc1 }
      let hit : Option Cached :=
        match res with
        | RedisResult.ok val => jsonUnmarshal val
        | _ => none
      match hit with
      | some cached =>
        let c2 := { c1 with writermem :=
          { c1.writermem with header := addHeaders c1.writermem.header cached.Header } }
        let c3 := c2.WriteHeader cached.Status
        let c4 := c3.Write cached.Data
        Except.ok c4.Abort
      | none =>
        let w := c1.buffers.length
        let c2 := { c1 with buffers := c1.buffers ++ [[]], Writer := w :: c1.Writer }
        match next c2 with
        | Except.error e => Except.error e
        | Except.ok c3 =>
          if c3.Status ≥ 200 ∧ c3.Status < 300 ∧ !c3.IsAborted then
            let cached : Cached :=
              { Status := c3.Status, Header := c3.writermem.header, Data := c3.buffers.getD w [] }
            let data := jsonMarshal cached
            match c3.redisClient, c3.cacheCfg with
            | some rc3, some cc =>
              Except.ok { c3 with redisClient := some (rc3.Set key data (cacheExpiration cc) c3.now) }
            | _, _ => Except.error nilDereference
          else Except.ok c3

/-- The entry `Cache` finds for `key`: the stored value when the lookup
succeeds and the value decodes, `none` otherwise (the hit test of `Cache`). -/
def cacheLookup (rc : RedisClient) (key : String) (now : Int) : Option Cached :=
  match (rc.Get key now).1 with
  | RedisResult.ok val => jsonUnmarshal val
  | _ => none

/-- The context `Cache` hands to `c.Next()` on a miss: the lookup has been
issued, and `c.Writer` is a new capturing `responseWriter` around the old one. -/
def cacheMissContext (c : Ctx) (rc : RedisClient) : Ctx :=
  { c with redisClient := some (rc.Get c.Request.URL.String c.now).2,
           buffers := c.buffers ++ [[]], Writer := c.buffers.length :: c.Writer }

/-! ## server.go: routes, and serving requests -/

def healthBody : Bytes := str "\x7b\"status\":\"ok\"\x7d"

/-- The handler of the route `/health` in `registerHttpRoutes`. -/
def health : HandlerFunc := fun _ c => Except.ok (c.JSON 200 healthBody)

/-- What the client has received: status and body chunks. -/
structure Response where
  status : Int
  body : List Bytes
deriving DecidableEq

def Ctx.response (c : Ctx) : Response :=
  { status := c.writermem.status, body := c.writermem.sink }

/-- The values of the header `key` in the header block sent to the client. -/
def Ctx.sentHeader (c : Ctx) (key : Bytes) : List Bytes :=
  match c.writermem.wroteHeader with
  | some (_, h) => h.get key
  | none => []

/-- The context `gin` hands to the handler chain for a new request: the writer
and the handler index are reset, the package-level state is the one left in `g`. -/
def newRequest (g : Ctx) (req : Request) (ip : String) (now : Int) : Ctx :=
  { g with Request := req, ClientIP := ip, now := now, index := -1,
           writermem := ginWriter.reset [], Writer := [], buffers := [] }

/-- `Engine.handleHTTPRequest`: runs the chain from its first handler. Handlers
that call `c.Next` at most once need no more fuel than this. -/
def ServeHTTP (handlers : List HandlerFunc) (c : Ctx) : Except String Ctx :=
  Next handlers (handlers.length + 1) c

/-- Serves consecutive requests for `req` of the client `ip`, arriving at the
given times, through `handlers`; returns the responses in order. -/
def serveAll (handlers : List HandlerFunc) (req : Request) (ip : String) :
    Ctx → List Int → Except String (List Response)
  | _, [] => Except.ok []
  | g, t :: ts =>
    match ServeHTTP handlers (newRequest g req ip t) with
    | Except.error e => Except.error e
    | Except.ok c =>
      match serveAll handlers req ip c ts with
      | Except.error e => Except.error e
      | Except.ok rs => Except.ok (c.response :: rs)

/-- The package state after serving all the requests (see `serveAll`). -/
def stateAfter (handlers : List HandlerFunc) (req : Request) (ip : String) :
    Ctx → List Int → Except String Ctx
  | g, [] => Except.ok g
  | g, t :: ts =>
    match ServeHTTP handlers (newRequest g req ip t) with
    | Except.error e => Except.error e
    | Except.ok c => stateAfter handlers req ip c ts

def getHealth : Request := { Method := "GET", URL := { Path := "/health", RawQuery := "" } }

/-- The package state at program start: no client, no configuration, no Redis client. -/
def startState : Ctx :=
  { Request := getHealth, ClientIP := "", writermem := ginWriter.reset [], Writer := [],
    buffers := [], index := -1, clients := fun _ => none, cfg := none, redisClient := none,
    cacheCfg := none, now := 0 }

/-- `InitRateLimit(config)`: stores the configuration (and starts the cleanup
routine); nothing is checked. -/
def InitRateLimit (g : Ctx) (config : RateLimitConfig) : Ctx :=
  { g with cfg := some config }

/-- `InitRedis(addr, cfg)`: stores the cache configuration and a client for the
server `server`; the result of the ping is returned to the caller, which
ignores it. -/
def InitRedis (g : Ctx) (server : RedisClient) (cfg : CacheConfig) : Ctx :=
  { g with cacheCfg := some cfg, redisClient := some server }

/-- The package state after `InitRateLimit(cfg)` and before any request. -/
def initState (cfg : RateLimitConfig) : Ctx := InitRateLimit startState cfg

/-- An empty, reachable Redis server. -/
def emptyRedis : RedisClient := { entries := [], reachable := true, cmds := [] }

/-- The first eight bytes of a PNG file. -/
def pngSignature : Bytes := [137, 80, 78, 71, 13, 10, 26, 10]

/-- A request for an image that the Swagger route `/swagger/*any` serves. -/
def getFavicon : Request :=
  { Method := "GET", URL := { Path := "/swagger/favicon-32x32.png", RawQuery := "" } }

/-- A final handler that sends `body` with `c.Writer.Write`. -/
def writeHandler (body : Bytes) : HandlerFunc := fun _ c => Except.ok (c.Write body)

/-- A final handler that sends `body` with `c.Writer.WriteString`. -/
def writeStringHandler (body : Bytes) : HandlerFunc := fun _ c => Except.ok (c.WriteString body)

/-- `c.Header(key, value)` for a non-empty value: `c.Writer.Header().Set`. -/
def Ctx.Header (c : Ctx) (key value : Bytes) : Ctx :=
  { c with writermem :=
      { c.writermem with header := c.writermem.header.put (CanonicalMIMEHeaderKey key) [value] } }

/-- A middleware that sets one response header and goes on, as the CORS
middleware installed ahead of `Cache` in `initRoutes` does on a cross-origin
request. -/
def withHeader (key value : Bytes) : HandlerFunc := fun _ c => Except.ok (c.Header key value)

def admitted : Response := { status := 200, body := [healthBody] }

def denied : Response := { status := 429, body := [tooManyRequestsBody] }

/-! ## middleware/ratelimit.go: the cleanup routine -/

/-- The duration `time.Duration(cfg.CleanupInterval) * time.Minute`, a product of
two `int64`. -/
def cleanupThreshold (cfg : RateLimitConfig) : Int :=
  wrapInt64 (cfg.CleanupInterval * time.Minute)

/-- The loop `for ip, client := range clients` of `cleanupRoutine` at time `now`:
a client whose `time.Since(client.lastSeen)` exceeds `threshold` is deleted. -/
def sweepClients (clients : String → Option client) (threshold now : Int) :
    String → Option client :=
  fun ip =>
    match clients ip with
    | some cl => if time.Sub now cl.lastSeen > threshold then none else some cl
    | none => none

/-- One pass of the loop of `cleanupRoutine` after its sleep, run at time `now`
with the lock held. -/
def cleanupSweep (g : Ctx) (now : Int) : Except String Ctx :=
  match g.cfg with
  | none => Except.error nilDereference
  | some cfg => Except.ok { g with clients := sweepClients g.clients (cleanupThreshold cfg) now }

/-- The package state `g` with the entry `cl` for the client `ip` in `clients`. -/
def withClient (g : Ctx) (ip : String) (cl : client) : Ctx :=
  { g with clients := setClient g.clients ip cl }

/-! ## The interleaving of requests and sweeps -/

/-- What happens to the package state, in the order in which the mutex admits
it: a request of the client `ip` arriving at time `t`, or one pass of the
cleanup routine at time `t`. -/
inductive Event where
  | request (ip : String) (t : Int)
  | sweep (t : Int)
deriving DecidableEq

def Event.time : Event → Int
  | Event.request _ t => t
  | Event.sweep t => t

namespace strconv

/-- The error of a `*strconv.NumError`: `ErrSyntax`, `ErrRange`, or the error
for a base or a bit size that is not allowed. -/
inductive NumError where
  | invalidSyntax
  | outOfRange
  | invalidBase
  | invalidBitSize
deriving DecidableEq

def maxUint64 : Nat := 18446744073709551615

/-- The function `lower`: `c | ('x' - 'X')`. -/
def lower (c : Nat) : Nat := c ||| 32

/-- The loop of `ParseUint` over the bytes of `s`, with `n` accumulated so far
in a `uint64`; the value returned with a range error is `maxVal`. -/
def parseUintLoop (base cutoff maxVal : Nat) : Bytes → Nat → Nat × Option NumError
  | [], n => (n, none)
  | c :: cs, n =>
    let digit : Option Nat :=
      if 48 ≤ c ∧ c ≤ 57 then some (c - 48)
      else if 97 ≤ lower c ∧ lower c ≤ 122 then some (lower c - 97 + 10)
      else none
    match digit with
    | none => (0, some NumError.invalidSyntax)
    | some d =>
      if d ≥ base then (0, some NumError.invalidSyntax)
      else if n ≥ cutoff then (maxVal, some NumError.outOfRange)
      else
        let n0 := (n * base) % 2 ^ 64
        let n1 := (n0 + d) % 2 ^ 64
        if n1 < n0 ∨ n1 > maxVal then (maxVal, some NumError.outOfRange)
        else parseUintLoop base cutoff maxVal cs n1

/-- `strconv.ParseUint(s, base, bitSize)` for a base from 2 to 36: the value
and the error. Base 0, which Go resolves from a prefix of `s`, is not used by the
program and is reported here as a base that is not allowed. -/
def ParseUint (s : Bytes) (base bitSize : Nat) : Nat × Option NumError :=
  if s = [] then (0, some NumError.invalidSyntax)
  else if ¬ (2 ≤ base ∧ base ≤ 36) then (0, some NumError.invalidBase)
  else
    let bits := if bitSize = 0 then 64 else bitSize
    if bits > 64 then (0, some NumError.invalidBitSize)
    else parseUintLoop base (maxUint64 / base + 1) (2 ^ bits - 1) s 0

/-- `strconv.ParseInt(s, base, bitSize)` for a base from 2 to 36. -/
def ParseInt (s : Bytes) (base bitSize : Nat) : Int × Option NumError :=
  match s with
  | [] => (0, some NumError.invalidSyntax)
  | c :: rest =>
    let neg : Bool := c = 45
    let digits := if c = 43 ∨ c = 45 then rest else s
    let (un, err) := ParseUint digits base bitSize
    if err ≠ none ∧ err ≠ some NumError.outOfRange then (0, err)
    else
      let bits := if bitSize = 0 then 64 else bitSize
      let cutoff : Nat := 2 ^ (bits - 1)
      if !neg ∧ un ≥ cutoff then ((cutoff : Int) - 1, some NumError.outOfRange)
      else if neg ∧ un > cutoff then (-(cutoff : Int), some NumError.outOfRange)
      else (if neg then -(un : Int) else (un : Int), none)

/-- The loop of the fast path of `Atoi`: `none` for a byte that is not a digit. -/
def atoiLoop : Bytes → Int → Option Int
  | [], n => some n
  | ch :: cs, n => if 48 ≤ ch ∧ ch ≤ 57 then atoiLoop cs (n * 10 + ((ch - 48 : Nat) : Int)) else none

/-- `strconv.Atoi(s)` where `int` has 64 bits. -/
def Atoi (s : Bytes) : Int × Option NumError :=
  if 0 < s.length ∧ s.length < 19 then
    let signed : Bool := s.head? = some 45 ∨ s.head? = some 43
    let digits := if signed then s.drop 1 else s
    if signed ∧ digits.length < 1 then (0, some NumError.invalidSyntax)
    else
      match atoiLoop digits 0 with
      | none => (0, some NumError.invalidSyntax)
      | some n => (if s.head? = some 45 then -n else n, none)
  else ParseInt s 10 0

end strconv

/-! ## models/requests, models/responses -/

/-- `responses.UserResponse`; a `time.Time` is held as the RFC 3339 text that
`Time.MarshalJSON` writes for it. -/
structure UserResponse where
  ID : Nat
  Username : Bytes
  Email : Bytes
  CreatedAt : Bytes
  UpdatedAt : Bytes
deriving DecidableEq

structure CreateUserRequest where
  Username : Bytes
  Email : Bytes
  Password : Bytes
deriving DecidableEq

structure UpdateUserRequest where
  Username : Bytes
  Email : Bytes
  Password : Bytes
deriving DecidableEq

/-- `json.Marshal(responses.ErrorResponse{Error: msg})`. -/
def marshalErrorResponse (msg : Bytes) : Bytes :=
  str "\x7b\"error\":" ++ appendString msg ++ [125]

/-- `json.Marshal` of a `responses.UserResponse` (or of a pointer to one). -/
def marshalUserResponse (u : UserResponse) : Bytes :=
  str "\x7b\"id\":" ++ appendInt (u.ID : Int) ++ str ",\"username\":" ++ appendString u.Username ++
    str ",\"email\":" ++ appendString u.Email ++ str ",\"created_at\":\"" ++ u.CreatedAt ++
    str "\",\"updated_at\":\"" ++ u.UpdatedAt ++ str "\"\x7d"

/-- `json.Marshal` of a `[]responses.UserResponse`; `none` is the nil slice. -/
def marshalUserResponses : Option (List UserResponse) → Bytes
  | none => str "null"
  | some us => 91 :: joinComma (us.map marshalUserResponse) ++ [93]

/-! ## services: the interface of the user service -/

/-- `services.IUserService`: what each method returns for its arguments (an
`error` is its message). -/
structure IUserService where
  CreateUser : CreateUserRequest → Except Bytes UserResponse
  GetUserByID : Nat → Except Bytes UserResponse
  UpdateUser : Nat → UpdateUserRequest → Except Bytes UserResponse
  DeleteUser : Nat → Option Bytes
  ListUsers : Int → Int → Except Bytes (Option (List UserResponse))

/-- A call of a method of the user service, with its arguments. -/
inductive ServiceCall where
  | CreateUser (req : CreateUserRequest)
  | GetUserByID (id : Nat)
  | UpdateUser (id : Nat) (req : UpdateUserRequest)
  | DeleteUser (id : Nat)
  | ListUsers (page pageSize : Int)
deriving DecidableEq

/-! ## handlers/user_handler.go

A handler is given the user service of its `UserHandler` and what `gin` extracts
from the request (`c.Param`, `c.DefaultQuery`, `c.ShouldBindJSON`); it returns
the calls it made on the service, in order, and the context it leaves. -/

namespace UserHandler

def invalidUserID : Bytes := str "invalid user ID"

/-- `GetUser`, where `id` is `c.Param("id")`. -/
def GetUser (svc : IUserService) (id : Bytes) (c : Ctx) : List ServiceCall × Ctx :=
  match strconv.ParseUint id 10 32 with
  | (_, some _) => ([], c.JSON 400 (marshalErrorResponse invalidUserID))
  | (n, none) =>
    match svc.GetUserByID n with
    | Except.error e => ([ServiceCall.GetUserByID n], c.JSON 404 (marshalErrorResponse e))
    | Except.ok user => ([ServiceCall.GetUserByID n], c.JSON 200 (marshalUserResponse user))

/-- `UpdateUser`, where `id` is `c.Param("id")` and `bound` is the result of
`c.ShouldBindJSON(&req)`: the request bound, or the error. -/
def UpdateUser (svc : IUserService) (id : Bytes) (bound : Except Bytes UpdateUserRequest)
    (c : Ctx) : List ServiceCall × Ctx :=
  match strconv.ParseUint id 10 32 with
  | (_, some _) => ([], c.JSON 400 (marshalErrorResponse invalidUserID))
  | (n, none) =>
    match bound with
    | Except.error e => ([], c.JSON 400 (marshalErrorResponse e))
    | Except.ok req =>
      match svc.UpdateUser n req with
      | Except.error e => ([ServiceCall.UpdateUser n req], c.JSON 400 (marshalErrorResponse e))
      | Except.ok user => ([ServiceCall.UpdateUser n req], c.JSON 200 (marshalUserResponse user))

/-- `DeleteUser`, where `id` is `c.Param("id")`. -/
def DeleteUser (svc : IUserService) (id : Bytes) (c : Ctx) : List ServiceCall × Ctx :=
  match strconv.ParseUint id 10 32 with
  | (_, some _) => ([], c.JSON 400 (marshalErrorResponse invalidUserID))
  | (n, none) =>
    match svc.DeleteUser n with
    | some e => ([ServiceCall.DeleteUser n], c.JSON 400 (marshalErrorResponse e))
    | none => ([ServiceCall.DeleteUser n], c.WriteHeader 204)

/-- `ListUsers`, where `page` is `c.DefaultQuery("page", "1")` and `pageSize` is
`c.DefaultQuery("page_size", "10")`. -/
def ListUsers (svc : IUserService) (page pageSize : Bytes) (c : Ctx) : List ServiceCall × Ctx :=
  let p := (strconv.Atoi page).1
  let ps := (strconv.Atoi pageSize).1
  match svc.ListUsers p ps with
  | Except.error e => ([ServiceCall.ListUsers p ps], c.JSON 400 (marshalErrorResponse e))
  | Except.ok users => ([ServiceCall.ListUsers p ps], c.JSON 200 (marshalUserResponses users))

end UserHandler

/-! ## encoding/json, for the user responses -/

/-- Behaviour of the libraries that the decoding of a user response depends on
and that the model takes as given. -/
structure JSONLib where
  /-- What `Time.UnmarshalJSON` makes of the text between the quotes of a JSON
  string: the RFC 3339 text of the time it denotes, or `none` for an error. -/
  parseTime : Bytes → Option Bytes
  /-- The message of the error that decoding the given input returns when the
  input is not valid JSON, or a value inside it cannot be stored in its field. -/
  errorText : Bytes → Bytes

/-- The text of the zero `time.Time`. -/
def zeroTime : Bytes := str "0001-01-01T00:00:00Z"

/-- The zero value of `responses.UserResponse`. -/
def zeroUser : UserResponse :=
  { ID := 0, Username := [], Email := [], CreatedAt := zeroTime, UpdatedAt := zeroTime }

/-- The Go values that travel through `interface{}` as mock data and as decoded
responses; the slice is `none` when nil. -/
inductive Value where
  | user (u : UserResponse)
  | users (us : Option (List UserResponse))
deriving DecidableEq

/-- The argument `response` of a request: a pointer to a zero
`responses.UserResponse` or to a nil `[]responses.UserResponse`. -/
inductive Target where
  | user
  | users
deriving DecidableEq

/-- `json.Marshal` of mock data; it cannot fail on these types. -/
def jsonMarshalValue : Value → Bytes
  | Value.user u => marshalUserResponse u
  | Value.users us => marshalUserResponses us

/-- Decodes a JSON value into a `uint` field holding `cur`. -/
def decodeUint (cur : Nat) (s : Bytes) : Option (Nat × Bytes) :=
  match skipWS s with
  | [] => none
  | c :: rest =>
    if c = 110 then (stripLiteral (str "null") (c :: rest)).map (fun r => (cur, r))
    else if c = 45 ∨ isDigit c then
      match scanNumber (c :: rest) with
      | none => none
      | some (lit, r) =>
        match strconv.ParseUint lit 10 64 with
        | (n, none) => some (n, r)
        | (_, some _) => none
    else none

/-- Decodes a JSON value into a `time.Time` field holding `cur`, through
`Time.UnmarshalJSON`, which is given the literal as it stands in the input. -/
def decodeTime (lib : JSONLib) (cur : Bytes) (s : Bytes) : Option (Bytes × Bytes) :=
  match skipWS s with
  | [] => none
  | c :: rest =>
    if c = 110 then (stripLiteral (str "null") (c :: rest)).map (fun r => (cur, r))
    else if c = 34 then
      match scanString (rest.length + 1) rest with
      | none => none
      | some (_, r) =>
        (lib.parseTime (rest.take (rest.length - r.length - 1))).map (fun t => (t, r))
    else none

/-- The field of `responses.UserResponse` a JSON object key selects: by its
exact name, else by its folded name. -/
def userFieldOf (key : Bytes) : Option String :=
  if foldName key = str "ID" then some "id"
  else if foldName key = str "USERNAME" then some "username"
  else if foldName key = str "EMAIL" then some "email"
  else if foldName key = str "CREATED_AT" then some "created_at"
  else if foldName key = str "UPDATED_AT" then some "updated_at"
  else none

/-- The members of a JSON object decoded into the user `cur`, from the start of
a member; an unknown key has its value skipped. -/
def decodeUserMembers (lib : JSONLib) : Nat → UserResponse → Bytes → Option (UserResponse × Bytes)
  | 0, _, _ => none
  | fuel + 1, cur, s =>
    match skipWS s with
    | 34 :: r =>
      match scanString (r.length + 1) r with
      | none => none
      | some (key, r1) =>
        match skipWS r1 with
        | 58 :: r2 =>
          let field : Option (UserResponse × Bytes) :=
            match userFieldOf key with
            | some "id" => (decodeUint cur.ID r2).map (fun p => ({ cur with ID := p.1 }, p.2))
            | some "username" =>
              (decodeString cur.Username r2).map (fun p => ({ cur with Username := p.1 }, p.2))
            | some "email" =>
              (decodeString cur.Email r2).map (fun p => ({ cur with Email := p.1 }, p.2))
            | some "created_at" =>
              (decodeTime lib cur.CreatedAt r2).map (fun p => ({ cur with CreatedAt := p.1 }, p.2))
            | some "updated_at" =>
              (decodeTime lib cur.UpdatedAt r2).map (fun p => ({ cur with UpdatedAt := p.1 }, p.2))
            | _ => (skipJSON (r2.length + 1) SkipMode.value r2).map (fun r3 => (cur, r3))
          match field with
          | none => none
          | some (cur1, r3) =>
            match skipWS r3 with
            | 44 :: r4 => decodeUserMembers lib fuel cur1 r4
            | 125 :: r4 => some (cur1, r4)
            | _ => none
        | _ => none
    | _ => none

/-- Decodes a JSON value into a `responses.UserResponse` holding `cur`. -/
def decodeUser (lib : JSONLib) (cur : UserResponse) (s : Bytes) : Option (UserResponse × Bytes) :=
  match skipWS s with
  | [] => none
  | c :: rest =>
    if c = 110 then (stripLiteral (str "null") (c :: rest)).map (fun r => (cur, r))
    else if c = 123 then
      match skipWS rest with
      | 125 :: r => some (cur, r)
      | r => decodeUserMembers lib (r.length + 1) cur r
    else none

/-- The elements of a JSON array decoded into new elements of a
`[]responses.UserResponse`, from the start of an element. -/
def decodeUserElements (lib : JSONLib) : Nat → Bytes → Option (List UserResponse × Bytes)
  | 0, _ => none
  | fuel + 1, s =>
    match decodeUser lib zeroUser s with
    | none => none
    | some (v, r) =>
      match skipWS r with
      | 44 :: r1 => (decodeUserElements lib fuel r1).map (fun p => (v :: p.1, p.2))
      | 93 :: r1 => some ([v], r1)
      | _ => none

/-- The name `UnmarshalTypeError.Value` gives the JSON value that begins with
the byte `c`. -/
def jsonKind (c : Nat) : Bytes :=
  if c = 123 then str "object"
  else if c = 91 then str "array"
  else if c = 34 then str "string"
  else if c = 116 ∨ c = 102 then str "bool"
  else str "number"

/-- `UnmarshalTypeError.Error` for a value that is not inside a struct. -/
def unmarshalTypeError (value goType : Bytes) : Bytes :=
  str "json: cannot unmarshal " ++ value ++ str " into Go value of type " ++ goType

/-- Decodes the JSON value at the head of valid input into the variable that
`target` points to: the value the variable holds afterwards, or the message of
the error. -/
def decodeInto (lib : JSONLib) (data : Bytes) (target : Target) : Except Bytes Value :=
  match skipWS data with
  | [] => Except.error (lib.errorText data)
  | c :: rest =>
    match target with
    | Target.user =>
      if c = 123 then
        match decodeUser lib zeroUser (c :: rest) with
        | some (u, _) => Except.ok (Value.user u)
        | none => Except.error (lib.errorText data)
      else if c = 110 then Except.ok (Value.user zeroUser)
      else Except.error (unmarshalTypeError (jsonKind c) (str "responses.UserResponse"))
    | Target.users =>
      if c = 91 then
        match skipWS rest with
        | 93 :: _ => Except.ok (Value.users (some []))
        | r =>
          match decodeUserElements lib (r.length + 1) r with
          | some (us, _) => Except.ok (Value.users (some us))
          | none => Except.error (lib.errorText data)
      else if c = 110 then Except.ok (Value.users none)
      else Except.error (unmarshalTypeError (jsonKind c) (str "[]responses.UserResponse"))

/-- `json.Unmarshal(data, response)`: the input is checked to be one valid JSON
value, then decoded. -/
def jsonUnmarshalInto (lib : JSONLib) (data : Bytes) (target : Target) : Except Bytes Value :=
  match skipJSON (data.length + 1) SkipMode.value data with
  | none => Except.error (lib.errorText data)
  | some r =>
    if (skipWS r).isEmpty then decodeInto lib data target else Except.error (lib.errorText data)

/-- `json.NewDecoder(body).Decode(response)`: the first JSON value of the body
is decoded. -/
def jsonDecodeInto (lib : JSONLib) (body : Bytes) (target : Target) : Except Bytes Value :=
  match skipJSON (body.length + 1) SkipMode.value body with
  | none => Except.error (lib.errorText body)
  | some _ => decodeInto lib body target

/-! ## utils/http/http_sender.go -/

/-- `MockResponse`; `Data` is `none` for nil, `Error` is `none` for nil and the
message of the error otherwise. -/
structure MockResponse where
  Data : Option Value
  StatusCode : Int
  Error : Option Bytes
deriving DecidableEq

/-- What `http.NewRequestWithContext` and `client.Do` make of a request. -/
inductive RoundTrip where
  | notCreated (err : Bytes)
  | notSent (err : Bytes)
  | response (StatusCode : Int) (Body : Bytes)
deriving DecidableEq

/-- `HTTPSender`. The field `client` stands for the `http.Client` and the
network behind it: a function of the method, the URL and the body of a request. -/
structure HTTPSender where
  client : Bytes → Bytes → Option Bytes → RoundTrip
  baseURL : Bytes
  mockMode : Bool
  mockData : List (Bytes × MockResponse)

namespace HTTPSender

def NewHTTPSender (client : Bytes → Bytes → Option Bytes → RoundTrip) (baseURL : Bytes) :
    HTTPSender :=
  { client := client, baseURL := baseURL, mockMode := false, mockData := [] }

def EnableMockMode (s : HTTPSender) : HTTPSender := { s with mockMode := true }

def DisableMockMode (s : HTTPSender) : HTTPSender := { s with mockMode := false }

/-- The key `fmt.Sprintf("%s:%s", method, path)`. -/
def mockKey (method path : Bytes) : Bytes := method ++ str ":" ++ path

/-- `SetMockResponse`: the map assignment `s.mockData[key] = response`. -/
def SetMockResponse (s : HTTPSender) (method path : Bytes) (response : MockResponse) :
    HTTPSender :=
  { s with mockData :=
      (mockKey method path, response) :: s.mockData.filter (fun kv => kv.1 != mockKey method path) }

/-- `json.Marshal(map[string]interface{}{"message": "default mock response"})`. -/
def defaultMock : Bytes := str "\x7b\"message\":\"default mock response\"\x7d"

/-- `SendRequest`. `body` is the JSON encoding of the argument `body` (`none` for
nil) and `response` the argument `response` (`none` for nil); the result is the
message of the error returned or, when `nil` is returned, the value that
the variable behind `response` holds if the call has stored one. -/
def SendRequest (lib : JSONLib) (s : HTTPSender) (method path : Bytes) (body : Option Bytes)
    (response : Option Target) : Except Bytes (Option Value) :=
  if s.mockMode then
    match s.mockData.lookup (mockKey method path) with
    | some mockResp =>
      match mockResp.Error with
      | some err => Except.error err
      | none =>
        match response, mockResp.Data with
        | some target, some data =>
          match jsonUnmarshalInto lib (jsonMarshalValue data) target with
          | Except.error err => Except.error (str "failed to unmarshal mock data: " ++ err)
          | Except.ok v => Except.ok (some v)
        | _, _ => Except.ok none
    | none =>
      match response with
      | some target =>
        match jsonUnmarshalInto lib defaultMock target with
        | Except.error err => Except.error err
        | Except.ok v => Except.ok (some v)
      | none => Except.ok none
  else
    match s.client method (s.baseURL ++ path) body with
    | RoundTrip.notCreated err => Except.error (str "failed to create request: " ++ err)
    | RoundTrip.notSent err => Except.error (str "failed to send request: " ++ err)
    | RoundTrip.response status respBody =>
      if status ≥ 400 then
        Except.error (str "request failed with status code: " ++ appendInt status)
      else
        match response with
        | some target =>
          match jsonDecodeInto lib respBody target with
          | Except.error err => Except.error (str "failed to decode response: " ++ err)
          | Except.ok v => Except.ok (some v)
        | none => Except.ok none

def Get (lib : JSONLib) (s : HTTPSender) (path : Bytes) (response : Option Target) :
    Except Bytes (Option Value) :=
  SendRequest lib s (str "GET") path none response

def Post (lib : JSONLib) (s : HTTPSender) (path : Bytes) (body : Option Bytes)
    (response : Option Target) : Except Bytes (Option Value) :=
  SendRequest lib s (str "POST") path body response

def Put (lib : JSONLib) (s : HTTPSender) (path : Bytes) (body : Option Bytes)
    (response : Option Target) : Except Bytes (Option Value) :=
  SendRequest lib s (str "PUT") path body response

def Delete (lib : JSONLib) (s : HTTPSender) (path : Bytes) : Except Bytes (Option Value) :=
  SendRequest lib s (str "DELETE") path none none

end HTTPSender

/-! ## services/user_service.go -/

structure UserService where
  httpSender : HTTPSender

/-- The variable `response` of type `responses.UserResponse` after a request:
what the request stored in it, else its zero value. -/
def userOf : Option Value → UserResponse
  | some (Value.user u) => u
  | _ => zeroUser

/-- The variable `response` of type `[]responses.UserResponse` after a request:
what the request stored in it, else nil. -/
def usersOf : Option Value → Option (List UserResponse)
  | some (Value.users us) => us
  | _ => none

/-- `json.Marshal` of a `requests.CreateUserRequest` or a
`requests.UpdateUserRequest`. -/
def marshalUserRequest (username email password : Bytes) : Bytes :=
  str "\x7b\"username\":" ++ appendString username ++ str ",\"email\":" ++ appendString email ++
    str ",\"password\":" ++ appendString password ++ [125]

namespace UserService

/-- `NewUserService(config)`, where `baseURL` is `config["base_url"]`, `now` is
the text of the time `time.Now()` returns while the mock responses are built,
and `client` is the network a sender out of mock mode would use. -/
def NewUserService (client : Bytes → Bytes → Option Bytes → RoundTrip) (baseURL now : Bytes) :
    UserService :=
  let s0 := (HTTPSender.NewHTTPSender client baseURL).EnableMockMode
  let s1 := s0.SetMockResponse (str "GET") (str "/users")
    { Data := some (Value.users (some [
        { ID := 1, Username := str "john_doe", Email := str "john@example.com",
          CreatedAt := now, UpdatedAt := now },
        { ID := 2, Username := str "jane_smith", Email := str "jane@example.com",
          CreatedAt := now, UpdatedAt := now }])),
      StatusCode := 0, Error := none }
  let s2 := s1.SetMockResponse (str "POST") (str "/users")
    { Data := some (Value.user
        { ID := 3, Username := str "new_user", Email := str "new@example.com",
          CreatedAt := now, UpdatedAt := now }),
      StatusCode := 0, Error := none }
  let s3 := s2.SetMockResponse (str "GET") (str "/users/1")
    { Data := some (Value.user
        { ID := 1, Username := str "john_doe", Email := str "john@example.com",
          CreatedAt := now, UpdatedAt := now }),
      StatusCode := 0, Error := none }
  let s4 := s3.SetMockResponse (str "PUT") (str "/users/1")
    { Data := some (Value.user
        { ID := 1, Username := str "updated_john_doe", Email := str "john.updated@example.com",
          CreatedAt := now, UpdatedAt := now }),
      StatusCode := 0, Error := none }
  let s5 := s4.SetMockResponse (str "DELETE") (str "/users/1")
    { Data := none, StatusCode := 0, Error := none }
  { httpSender := s5 }

def CreateUser (lib : JSONLib) (s : UserService) (req : CreateUserRequest) :
    Except Bytes UserResponse :=
  match s.httpSender.Post lib (str "/users")
      (some (marshalUserRequest req.Username req.Email req.Password)) (some Target.user) with
  | Except.error err => Except.error (str "failed to create user: " ++ err)
  | Except.ok v => Except.ok (userOf v)

def GetUserByID (lib : JSONLib) (s : UserService) (id : Nat) : Except Bytes UserResponse :=
  match s.httpSender.Get lib (str "/users/" ++ appendInt (id : Int)) (some Target.user) with
  | Except.error err => Except.error (str "failed to get user: " ++ err)
  | Except.ok v => Except.ok (userOf v)

def UpdateUser (lib : JSONLib) (s : UserService) (id : Nat) (req : UpdateUserRequest) :
    Except Bytes UserResponse :=
  match s.httpSender.Put lib (str "/users/" ++ appendInt (id : Int))
      (some (marshalUserRequest req.Username req.Email req.Password)) (some Target.user) with
  | Except.error err => Except.error (str "failed to update user: " ++ err)
  | Except.ok v => Except.ok (userOf v)

def DeleteUser (lib : JSONLib) (s : UserService) (id : Nat) : Option Bytes :=
  match s.httpSender.Delete lib (str "/users/" ++ appendInt (id : Int)) with
  | Except.error err => some (str "failed to delete user: " ++ err)
  | Except.ok _ => none

def ListUsers (lib : JSONLib) (s : UserService) (page pageSize : Int) :
    Except Bytes (Option (List UserResponse)) :=
  match s.httpSender.Get lib
      (str "/users?page=" ++ appendInt page ++ str "&page_size=" ++ appendInt pageSize)
      (some Target.users) with
  | Except.error err => Except.error (str "failed to list users: " ++ err)
  | Except.ok v => Except.ok (usersOf v)

/-- The `UserService` as the `services.IUserService` that `NewUserHandler` is
given. -/
def toIUserService (lib : JSONLib) (s : UserService) : IUserService :=
  { CreateUser := CreateUser lib s, GetUserByID := GetUserByID lib s,
    UpdateUser := UpdateUser lib s, DeleteUser := DeleteUser lib s,
    ListUsers := ListUsers lib s }

end UserService

/-- A user service for examples: it knows one user, with ID 1. -/
def oneUserService : IUserService :=
  { CreateUser := fun _ => Except.error (str "not available"),
    GetUserByID := fun id =>
      if id = 1 then
        Except.ok { ID := 1, Username := str "john_doe", Email := str "john@example.com",
                    CreatedAt := zeroTime, UpdatedAt := zeroTime }
      else Except.error (str "user not found"),
    UpdateUser := fun id req =>
      if id = 1 then
        Except.ok { ID := 1, Username := req.Username, Email := req.Email,
                    CreatedAt := zeroTime, UpdatedAt := zeroTime }
      else Except.error (str "user not found"),
    DeleteUser := fun id => if id = 1 then none else some (str "user not found"),
    ListUsers := fun _ _ => Except.ok (some []) }

/-- A request `PUT /api/users/1`. -/
def putUser : Request := { Method := "PUT", URL := { Path := "/api/users/1", RawQuery := "" } }

/-- A base-10 unsigned integer representable in 32 bits: a non-empty string of
decimal digits whose value is at most 4294967295. -/
def isUint32Decimal (s : Bytes) : Bool :=
  !s.isEmpty && s.all isDigit && decide (digitsValue s ≤ 4294967295)

end ApiGateway

/-! # Properties -/

namespace ApiGateway

/-! ## Arithmetic of the limiter -/

theorem wrapInt64_of_range (x : Int) (h1 : minInt64 ≤ x) (h2 : x ≤ maxInt64) :
    wrapInt64 x = x := by
  unfold wrapInt64
  unfold minInt64 at h1
  unfold maxInt64 at h2
  omega

theorem truncate_intCast (n : Int) : truncate (n : ℚ) = n := by
  simp [truncate]

theorem time_Sub_self (t : Int) : time.Sub t t = 0 := by
  simp [time.Sub, minInt64, maxInt64]

theorem time_Sub_nonneg (t u : Int) (h : u ≤ t) : 0 ≤ time.Sub t u := by
  unfold time.Sub minInt64 maxInt64
  omega

/-- The interval `time.Minute / requestsPerMinute` for a rate between 1 and 60e9. -/
theorem goDiv_Minute (rpm : Int) (h1 : 1 ≤ rpm) (h2 : rpm ≤ 60000000000) :
    goDiv time.Minute rpm = Except.ok (60000000000 / rpm) ∧
      1 ≤ (60000000000 : Int) / rpm ∧ (60000000000 : Int) / rpm ≤ 60000000000 := by
  have hpos : 1 ≤ (60000000000 : Int) / rpm :=
    Int.le_ediv_of_mul_le (by omega) (by omega)
  have hle : (60000000000 : Int) / rpm ≤ 60000000000 :=
    Int.ediv_le_self _ (by norm_num)
  refine ⟨?_, hpos, hle⟩
  have hne : rpm ≠ 0 := by omega
  have hM : time.Minute = 60000000000 := by decide
  unfold goDiv
  rw [if_neg hne, hM, Int.tdiv_eq_ediv (by norm_num) (by omega)]
  rw [wrapInt64_of_range _ (by unfold minInt64; omega) (by unfold maxInt64; omega)]

theorem Every_eq (I : Int) (h : 1 ≤ I) : rate.Every I = 1000000000 / (I : ℚ) := by
  have hI : (0 : ℚ) < (I : ℚ) := by exact_mod_cast (by omega : (0 : Int) < I)
  unfold rate.Every time.Seconds
  rw [if_neg (by omega)]
  field_simp

theorem Every_pos (I : Int) (h : 1 ≤ I) : 0 < rate.Every I := by
  have hI : (0 : ℚ) < (I : ℚ) := by exact_mod_cast (by omega : (0 : Int) < I)
  rw [Every_eq I h]
  positivity

theorem Every_ne_Inf (I : Int) (h : 1 ≤ I) : rate.Every I ≠ rate.Inf := by
  have hI : (1 : ℚ) ≤ (I : ℚ) := by exact_mod_cast h
  have h1 : rate.Every I ≤ 1000000000 := by
    rw [Every_eq I h]
    rw [div_le_iff₀ (by linarith)]
    nlinarith
  have h2 : (1000000000 : ℚ) < rate.Inf := by
    unfold rate.Inf
    norm_num
  intro h3
  rw [h3] at h1
  linarith

/-- A new limiter has its full burst whatever the time of the first call. -/
theorem advance_new (L : ℚ) (b : Int) (t : Int) (hL : 0 < L) :
    (rate.NewLimiter L b).advance t = (b : ℚ) := by
  have hel : 0 ≤ time.Sub t (if t < 0 then t else 0) := by
    apply time_Sub_nonneg
    split <;> omega
  have hd : 0 ≤ rate.tokensFromDuration L (time.Sub t (if t < 0 then t else 0)) := by
    unfold rate.tokensFromDuration time.Seconds
    rw [if_neg (not_le.mpr hL)]
    have : (0 : ℚ) ≤ ((time.Sub t (if t < 0 then t else 0) : Int) : ℚ) := by exact_mod_cast hel
    positivity
  simp only [rate.Limiter.advance, rate.NewLimiter]
  generalize rate.tokensFromDuration L (time.Sub t (if t < 0 then t else 0)) = d at hd ⊢
  by_cases h : (b : ℚ) < (b : ℚ) + d
  · rw [if_pos h]
  · rw [if_neg h]
    linarith [not_lt.mp h]

/-- At the instant of its last update the limiter holds the tokens it was left with. -/
theorem advance_same (lim : rate.Limiter) (t : Int)
    (hlast : lim.last = t) (hle : lim.tokens ≤ (lim.burst : ℚ)) :
    lim.advance t = lim.tokens := by
  simp only [rate.Limiter.advance, hlast, lt_irrefl, if_false, time_Sub_self]
  have : rate.tokensFromDuration lim.limit 0 = 0 := by
    simp [rate.tokensFromDuration, time.Seconds]
  rw [this, add_zero, if_neg (not_lt.mpr hle)]

/-- The wait for one missing token at the limit `Every I` is `I` nanoseconds. -/
theorem durationFromTokens_one (I : Int) (h1 : 1 ≤ I) (h2 : I ≤ 60000000000) :
    rate.durationFromTokens (rate.Every I) 1 = I := by
  have hI : (0 : ℚ) < (I : ℚ) := by exact_mod_cast (by omega : (0 : Int) < I)
  have hd : (1 : ℚ) / rate.Every I * ((time.Second : Int) : ℚ) = (I : ℚ) := by
    rw [Every_eq I h1]
    have : ((time.Second : Int) : ℚ) = 1000000000 := by norm_num [time.Second]
    rw [this]
    field_simp
  unfold rate.durationFromTokens
  rw [if_neg (not_le.mpr (Every_pos I h1))]
  simp only [hd]
  have hmax : ¬ ((I : ℚ) > ((maxInt64 : Int) : ℚ)) := by
    have : I ≤ maxInt64 := by unfold maxInt64; omega
    have : (I : ℚ) ≤ ((maxInt64 : Int) : ℚ) := by exact_mod_cast this
    linarith
  rw [if_neg hmax, truncate_intCast]

theorem Allow_new (I b t : Int) (hI : 1 ≤ I) (hb : 1 ≤ b) :
    (rate.NewLimiter (rate.Every I) b).Allow t =
      (true, { limit := rate.Every I, burst := b, tokens := (b : ℚ) - 1, last := t }) := by
  have hb1 : (1 : ℚ) ≤ (b : ℚ) := by exact_mod_cast hb
  have hadv := advance_new (rate.Every I) b t (Every_pos I hI)
  unfold rate.Limiter.Allow rate.Limiter.reserveN
  have e1 : (rate.NewLimiter (rate.Every I) b).limit = rate.Every I := rfl
  have e2 : (rate.NewLimiter (rate.Every I) b).burst = b := rfl
  rw [e1, e2, if_neg (Every_ne_Inf I hI), if_neg (ne_of_gt (Every_pos I hI)), hadv]
  have hnn : ¬ ((b : ℚ) - ((1 : Int) : ℚ) < 0) := by
    push_cast
    linarith
  simp only [hnn, if_false]
  rw [if_pos ⟨hb, le_refl _⟩]
  simp [rate.NewLimiter]

/-- `Allow` at the instant of the last update, with a whole number `j` of tokens left. -/
theorem Allow_same (lim : rate.Limiter) (I t : Int) (j : Nat) (hI : 1 ≤ I)
    (hI2 : I ≤ 60000000000) (hlimit : lim.limit = rate.Every I) (hlast : lim.last = t)
    (htok : lim.tokens = (j : ℚ)) (hjb : (j : Int) ≤ lim.burst) (hb : 1 ≤ lim.burst) :
    lim.Allow t =
      if 1 ≤ j then (true, { lim with last := t, tokens := (j : ℚ) - 1 }) else (false, lim) := by
  have hL : 0 < lim.limit := by rw [hlimit]; exact Every_pos I hI
  have hle : lim.tokens ≤ (lim.burst : ℚ) := by
    rw [htok]
    exact_mod_cast hjb
  have hadv := advance_same lim t hlast hle
  unfold rate.Limiter.Allow rate.Limiter.reserveN
  rw [if_neg (by rw [hlimit]; exact Every_ne_Inf I hI), if_neg (ne_of_gt hL), hadv, htok]
  by_cases hj : 1 ≤ j
  · have hnn : ¬ ((j : ℚ) - ((1 : Int) : ℚ) < 0) := by
      have : (1 : ℚ) ≤ (j : ℚ) := by exact_mod_cast hj
      push_cast
      linarith
    simp only [hnn, if_false]
    rw [if_pos ⟨hb, le_refl _⟩, if_pos hj]
    simp
  · have hj0 : j = 0 := by omega
    subst hj0
    have hneg : ((0 : Nat) : ℚ) - ((1 : Int) : ℚ) < 0 := by norm_num
    have hone : -(((0 : Nat) : ℚ) - ((1 : Int) : ℚ)) = 1 := by norm_num
    simp only [hneg, if_true, hone]
    rw [hlimit, durationFromTokens_one I hI hI2]
    rw [if_neg (by omega), if_neg (by omega)]

/-! ## One request through `RateLimit` and a final handler -/

/-- `Write` through any chain of wrappers hands the bytes to the `gin` writer and
touches nothing but the writer and the buffers. -/
theorem writerWrite_frame (ws : List Nat) :
    ∀ (c : Ctx) (b : Bytes),
      (writerWrite ws c b).writermem = c.writermem.Write b ∧
      (writerWrite ws c b).index = c.index ∧ (writerWrite ws c b).cfg = c.cfg ∧
      (writerWrite ws c b).clients = c.clients ∧
      (writerWrite ws c b).redisClient = c.redisClient ∧
      (writerWrite ws c b).cacheCfg = c.cacheCfg := by
  induction ws with
  | nil =>
    intro c b
    exact ⟨rfl, rfl, rfl, rfl, rfl, rfl⟩
  | cons w inner ih =>
    intro c b
    exact ih { c with buffers := appendAt c.buffers w b } b

theorem JSON_fresh_response (c : Ctx) (code : Int) (body : Bytes) (hcode : 0 < code)
    (hallowed : bodyAllowedForStatus code = true) (hsize : c.writermem.size = noWritten)
    (hsink : c.writermem.sink = []) :
    (c.JSON code body).response = { status := code, body := [body] } := by
  unfold Ctx.JSON
  simp only [hallowed, Bool.not_true, Bool.false_eq_true, if_false]
  unfold writeContentType
  by_cases hst : c.writermem.status = code
  · split <;>
      simp [Ctx.response, Ctx.Write, (writerWrite_frame _ _ _).1, Ctx.WriteHeader,
        ginWriter.WriteHeader, ginWriter.Write, ginWriter.WriteHeaderNow, ginWriter.Written,
        hsize, hsink, hst]
  · split <;>
      simp [Ctx.response, Ctx.Write, (writerWrite_frame _ _ _).1, Ctx.WriteHeader,
        ginWriter.WriteHeader, ginWriter.Write, ginWriter.WriteHeaderNow, ginWriter.Written,
        hsize, hsink, hst, hcode]

theorem setClient_setClient (m : String → Option client) (ip : String) (a b : client) :
    setClient (setClient m ip a) ip b = setClient m ip b := by
  funext k
  unfold setClient
  split <;> rfl

theorem setClient_same (m : String → Option client) (ip : String) (a : client) :
    setClient m ip a ip = some a := by
  simp [setClient]

/-- Whatever branch `getClientLimiter` takes, the registry afterwards holds the
returned limiter for `ip`, last seen now; nothing else changes. -/
theorem getClientLimiter_ok (c c1 : Ctx) (ip : String) (lim : rate.Limiter)
    (h : getClientLimiter c ip = Except.ok (lim, c1)) :
    c1 = { c with clients := setClient c.clients ip { limiter := lim, lastSeen := c.now } } := by
  unfold getClientLimiter at h
  split at h
  · injection h with h
    injection h with h1 h2
    rw [← h2, ← h1]
  · split at h
    · exact absurd h (by simp)
    · split at h
      · exact absurd h (by simp)
      · injection h with h
        injection h with h1 h2
        rw [← h2, ← h1]

/-- What `RateLimit` does once the limiter of the client is known: the
registry entry holds the limiter after `Allow`, and the request goes on to `next`
or is rejected. -/
theorem RateLimit_spec (next : Ctx → Except String Ctx) (c c1 : Ctx) (cfg : RateLimitConfig)
    (lim lim1 : rate.Limiter) (ok : Bool) (hcfg : c.cfg = some cfg)
    (hget : getClientLimiter c c.ClientIP = Except.ok (lim, c1))
    (hallow : lim.Allow c.now = (ok, lim1)) :
    RateLimit next c =
      if ok then
        next { c with clients := setClient c.clients c.ClientIP
                                  { limiter := lim1, lastSeen := c.now } }
      else
        Except.ok (Ctx.JSON { c with clients := setClient c.clients c.ClientIP
                                                { limiter := lim1, lastSeen := c.now } }
          StatusTooManyRequests tooManyRequestsBody).Abort := by
  have hc1 := getClientLimiter_ok c c1 _ lim hget
  subst hc1
  unfold RateLimit
  simp only [hcfg]
  rw [hget]
  simp only [hallow, storeLimiter, setClient_same, setClient_setClient]
  cases ok <;> simp [hcfg]

theorem nextLoop_done (hs : List HandlerFunc) (fuel : Nat) (c : Ctx)
    (h : ¬ c.index < hs.length) : nextLoop hs (fuel + 1) c = Except.ok c := by
  rw [nextLoop, if_neg h]

theorem nextLoop_run (hs : List HandlerFunc) (fuel : Nat) (c : Ctx) (h : HandlerFunc)
    (hlt : c.index < hs.length) (hget : hs.get? c.index.toNat = some h) :
    nextLoop hs (fuel + 1) c =
      match h (fun c1 => nextLoop hs fuel { c1 with index := c1.index + 1 }) c with
      | Except.ok c2 => nextLoop hs fuel { c2 with index := c2.index + 1 }
      | Except.error e => Except.error e := by
  rw [nextLoop, if_pos hlt, hget]

theorem getClientLimiter_index (c : Ctx) (ip : String) (i : Int) :
    getClientLimiter { c with index := i } ip =
      match getClientLimiter c ip with
      | Except.ok (l, c1) => Except.ok (l, { c1 with index := i })
      | Except.error e => Except.error e := by
  unfold getClientLimiter
  cases h1 : c.clients ip with
  | some cl => simp
  | none =>
    cases h2 : c.cfg with
    | none => simp
    | some cfg =>
      cases h3 : goDiv time.Minute cfg.RequestsPerMinute with
      | error e => simp [h3]
      | ok I => simp [h3]

theorem JSON_frame (c : Ctx) (code : Int) (b : Bytes) :
    (c.JSON code b).index = c.index ∧ (c.JSON code b).cfg = c.cfg ∧
      (c.JSON code b).clients = c.clients ∧ (c.JSON code b).redisClient = c.redisClient ∧
      (c.JSON code b).cacheCfg = c.cacheCfg := by
  unfold Ctx.JSON writeContentType Ctx.WriteHeader Ctx.Write
  simp only []
  split <;> split <;>
    simp [(writerWrite_frame _ _ _).2.1, (writerWrite_frame _ _ _).2.2.1,
      (writerWrite_frame _ _ _).2.2.2.1, (writerWrite_frame _ _ _).2.2.2.2.1,
      (writerWrite_frame _ _ _).2.2.2.2.2]

/-- The chain `RateLimit`, `health` on a new request: the response is decided by
`Allow` on the limiter of the client, and the registry entry of the client
holds the limiter after that call. -/
theorem serve_RateLimit_health (c c1 : Ctx) (cfg : RateLimitConfig)
    (lim lim1 : rate.Limiter) (ok : Bool) (hidx : c.index = -1)
    (hsize : c.writermem.size = noWritten) (hsink : c.writermem.sink = [])
    (hcfg : c.cfg = some cfg)
    (hget : getClientLimiter c c.ClientIP = Except.ok (lim, c1))
    (hallow : lim.Allow c.now = (ok, lim1)) :
    ∃ c2, ServeHTTP [RateLimit, health] c = Except.ok c2 ∧ c2.cfg = some cfg ∧
      c2.clients = setClient c.clients c.ClientIP { limiter := lim1, lastSeen := c.now } ∧
      c2.response = if ok then admitted else denied := by
  have hlen : ([RateLimit, health] : List HandlerFunc).length + 1 = 2 + 1 := rfl
  have hget0 : getClientLimiter { c with index := c.index + 1 } c.ClientIP =
      Except.ok (lim, { c1 with index := c.index + 1 }) := by
    rw [getClientLimiter_index, hget]
  unfold ServeHTTP Next
  rw [hlen, nextLoop_run _ 2 _ RateLimit (by simp [hidx]) (by simp [hidx])]
  rw [RateLimit_spec _ { c with index := c.index + 1 } _ cfg lim lim1 ok hcfg hget0 hallow]
  cases ok
  · simp only [Bool.false_eq_true, if_false]
    rw [nextLoop_done _ 1 _ (by simp [Ctx.Abort, abortIndex])]
    refine ⟨_, rfl, ?_, ?_, ?_⟩
    · simp [Ctx.Abort, (JSON_frame _ _ _).2.1, hcfg]
    · simp [Ctx.Abort, (JSON_frame _ _ _).2.2.1]
    · simp only [Ctx.response, Ctx.Abort]
      exact JSON_fresh_response _ _ _ (by decide) (by decide) hsize hsink
  · simp only [if_true]
    rw [show (2 : Nat) = 1 + 1 from rfl,
      nextLoop_run _ 1 _ health (by simp [hidx]) (by simp [hidx])]
    simp only [health]
    rw [show (1 : Nat) = 0 + 1 from rfl,
      nextLoop_done _ 0 _ (by simp [(JSON_frame _ _ _).1, hidx])]
    simp only []
    rw [show (0 + 1 + 1 : Nat) = 1 + 1 from rfl,
      nextLoop_done _ 1 _ (by simp [(JSON_frame _ _ _).1, hidx])]
    refine ⟨_, rfl, ?_, ?_, ?_⟩
    · simp [(JSON_frame _ _ _).2.1, hcfg]
    · simp [(JSON_frame _ _ _).2.2.1]
    · simp only [Ctx.response]
      exact JSON_fresh_response _ _ _ (by decide) (by decide) hsize hsink

theorem getClientLimiter_existing (c : Ctx) (ip : String) (cl : client)
    (h : c.clients ip = some cl) :
    getClientLimiter c ip = Except.ok (cl.limiter,
      { c with clients := setClient c.clients ip { cl with lastSeen := c.now } }) := by
  unfold getClientLimiter
  rw [h]

theorem getClientLimiter_new (c : Ctx) (ip : String) (cfg : RateLimitConfig) (I : Int)
    (h : c.clients ip = none) (hcfg : c.cfg = some cfg)
    (hdiv : goDiv time.Minute cfg.RequestsPerMinute = Except.ok I) :
    getClientLimiter c ip = Except.ok (rate.NewLimiter (rate.Every I) cfg.BurstSize,
      { c with clients := setClient c.clients ip
                 { limiter := rate.NewLimiter (rate.Every I) cfg.BurstSize, lastSeen := c.now } }) := by
  unfold getClientLimiter
  rw [h]
  simp only [hcfg, hdiv]

/-- One request of a client with a registry entry, served through `RateLimit`
and `health`. -/
theorem serve_existing (g : Ctx) (req : Request) (ip : String) (t : Int)
    (cfg : RateLimitConfig) (cl : client) (lim1 : rate.Limiter) (ok : Bool)
    (hcfg : g.cfg = some cfg) (hcl : g.clients ip = some cl)
    (hallow : cl.limiter.Allow t = (ok, lim1)) :
    ∃ c2, ServeHTTP [RateLimit, health] (newRequest g req ip t) = Except.ok c2 ∧
      c2.cfg = some cfg ∧ c2.clients ip = some { limiter := lim1, lastSeen := t } ∧
      c2.response = if ok then admitted else denied := by
  obtain ⟨c2, h1, h2, h3, h4⟩ := serve_RateLimit_health (newRequest g req ip t) _ cfg
    cl.limiter lim1 ok rfl rfl rfl hcfg
    (getClientLimiter_existing (newRequest g req ip t) ip cl hcl) hallow
  refine ⟨c2, h1, h2, ?_, h4⟩
  rw [h3]
  exact setClient_same _ _ _

/-- One request of a client without a registry entry, served through
`RateLimit` and `health`. -/
theorem serve_new (g : Ctx) (req : Request) (ip : String) (t : Int)
    (cfg : RateLimitConfig) (I : Int) (lim1 : rate.Limiter) (ok : Bool)
    (hcfg : g.cfg = some cfg) (hnew : g.clients ip = none)
    (hdiv : goDiv time.Minute cfg.RequestsPerMinute = Except.ok I)
    (hallow : (rate.NewLimiter (rate.Every I) cfg.BurstSize).Allow t = (ok, lim1)) :
    ∃ c2, ServeHTTP [RateLimit, health] (newRequest g req ip t) = Except.ok c2 ∧
      c2.cfg = some cfg ∧ c2.clients ip = some { limiter := lim1, lastSeen := t } ∧
      c2.response = if ok then admitted else denied := by
  obtain ⟨c2, h1, h2, h3, h4⟩ := serve_RateLimit_health (newRequest g req ip t) _ cfg
    _ lim1 ok rfl rfl rfl hcfg
    (getClientLimiter_new (newRequest g req ip t) ip cfg I hnew hcfg hdiv) hallow
  refine ⟨c2, h1, h2, ?_, h4⟩
  rw [h3]
  exact setClient_same _ _ _

theorem serveAll_cons (hs : List HandlerFunc) (req : Request) (ip : String) (g c : Ctx)
    (t : Int) (ts : List Int) (r : Response) (rs : List Response)
    (h1 : ServeHTTP hs (newRequest g req ip t) = Except.ok c) (hr : c.response = r)
    (h2 : serveAll hs req ip c ts = Except.ok rs) :
    serveAll hs req ip g (t :: ts) = Except.ok (r :: rs) := by
  rw [serveAll, h1]
  simp only [h2, hr]

/-- A client whose limiter was last updated at `t` and holds `j` whole tokens:
of `j + 1` further requests at `t`, the first `j` pass and the last is rejected. -/
theorem serveAll_drain (req : Request) (ip : String) (t : Int) (cfg : RateLimitConfig)
    (I : Int) (hI : 1 ≤ I) (hI2 : I ≤ 60000000000) (j : Nat) :
    ∀ (g : Ctx) (cl : client), g.cfg = some cfg → g.clients ip = some cl →
      cl.limiter.limit = rate.Every I → cl.limiter.last = t → cl.limiter.tokens = (j : ℚ) →
      (j : Int) ≤ cl.limiter.burst → 1 ≤ cl.limiter.burst →
      serveAll [RateLimit, health] req ip g (List.replicate (j + 1) t) =
        Except.ok (List.replicate j admitted ++ [denied]) := by
  induction j with
  | zero =>
    intro g cl hcfg hcl hlim hlast htok hjb hb
    have hallow := Allow_same cl.limiter I t 0 hI hI2 hlim hlast htok hjb hb
    simp only [Nat.not_succ_le_zero, if_false] at hallow
    obtain ⟨c2, h1, _, _, h4⟩ := serve_existing g req ip t cfg cl _ false hcfg hcl hallow
    simp only [List.replicate, serveAll, h1]
    simp [h4]
  | succ j ih =>
    intro g cl hcfg hcl hlim hlast htok hjb hb
    have hallow := Allow_same cl.limiter I t (j + 1) hI hI2 hlim hlast htok hjb hb
    simp only [Nat.le_add_left, if_true] at hallow
    obtain ⟨c2, h1, h2, h3, h4⟩ := serve_existing g req ip t cfg cl _ true hcfg hcl hallow
    have ih1 := ih c2 _ h2 h3 hlim rfl (by push_cast; ring) (by simp only []; omega) hb
    rw [List.replicate_succ, serveAll, h1]
    simp only []
    rw [ih1]
    simp [h4, List.replicate_succ]

/-! ## C1 -/

/-- C1, as stated, fails: with `requestsPerMinute = 60000000001` and
`burstSize = 1` the interval `time.Minute / requestsPerMinute` is zero
nanoseconds, `rate.Every` returns the infinite limit, and the second of two
requests of a new client at the same instant is admitted, not denied. -/
theorem C1_counterexample :
    (1 : Int) ≤ 60000000001 ∧ (initState ⟨60000000001, 1, 5⟩).clients "10.0.0.1" = none ∧
    serveAll [RateLimit, health] getHealth "10.0.0.1" (initState ⟨60000000001, 1, 5⟩)
      (List.replicate (1 + 1) 0) = Except.ok [admitted, admitted] ∧
    serveAll [RateLimit, health] getHealth "10.0.0.1" (initState ⟨60000000001, 1, 5⟩)
      (List.replicate (1 + 1) 0) ≠ Except.ok (List.replicate 1 admitted ++ [denied]) := by
  decide!

/-- C1 (amended): for every rate-limit configuration with
`1 ≤ requestsPerMinute ≤ 60000000000` and `burstSize = b ≥ 1`, and every client
without a registry entry: of `b + 1` requests of that client at the same
instant, served through `RateLimit` followed by the `/health` handler, the first
`b` get the handler's response and the last gets the 429 rejection. -/
theorem C1_burst_admitted_next_denied (cfg : RateLimitConfig) (b : Nat) (g : Ctx)
    (req : Request) (ip : String) (t : Int)
    (hrpm : 1 ≤ cfg.RequestsPerMinute) (hmax : cfg.RequestsPerMinute ≤ 60000000000)
    (hb : 1 ≤ b) (hburst : cfg.BurstSize = (b : Int)) (hcfg : g.cfg = some cfg)
    (hnew : g.clients ip = none) :
    serveAll [RateLimit, health] req ip g (List.replicate (b + 1) t) =
      Except.ok (List.replicate b admitted ++ [denied]) := by
  obtain ⟨hdiv, hI, hI2⟩ := goDiv_Minute cfg.RequestsPerMinute hrpm hmax
  have hbi : (1 : Int) ≤ cfg.BurstSize := by rw [hburst]; exact_mod_cast hb
  have hallow := Allow_new _ cfg.BurstSize t hI hbi
  obtain ⟨c2, h1, h2, h3, h4⟩ := serve_new g req ip t cfg _ _ true hcfg hnew hdiv hallow
  obtain ⟨j, rfl⟩ : ∃ j, b = j + 1 := ⟨b - 1, by omega⟩
  have hd := serveAll_drain req ip t cfg _ hI hI2 j c2 _ h2 h3 rfl rfl
    (by simp only [hburst]; push_cast; ring) (by simp only [hburst]; push_cast; omega) hbi
  rw [List.replicate_succ, serveAll, h1]
  simp only []
  rw [hd]
  simp [h4, List.replicate_succ]

theorem C1_burst_admitted_next_denied_witness :
    serveAll [RateLimit, health] getHealth "10.0.0.1" (initState ⟨60, 2, 5⟩)
      (List.replicate (2 + 1) 0) = Except.ok (List.replicate 2 admitted ++ [denied]) :=
  C1_burst_admitted_next_denied ⟨60, 2, 5⟩ 2 (initState ⟨60, 2, 5⟩) getHealth "10.0.0.1" 0
    (by decide) (by decide) (by decide) rfl rfl rfl

/-! ## The cache middleware -/

/-- `Cache` on a GET request with a Redis client, in terms of the lookup. -/
theorem Cache_get (next : Ctx → Except String Ctx) (c : Ctx) (rc : RedisClient)
    (hget : c.Request.Method = MethodGet) (hrc : c.redisClient = some rc) :
    Cache next c =
      match cacheLookup rc c.Request.URL.String c.now with
      | some cached =>
        Except.ok (Ctx.Write (Ctx.WriteHeader
          { c with redisClient := some (rc.Get c.Request.URL.String c.now).2,
                   writermem := { c.writermem with
                     header := addHeaders c.writermem.header cached.Header } }
          cached.Status) cached.Data).Abort
      | none =>
        match next (cacheMissContext c rc) with
        | Except.error e => Except.error e
        | Except.ok c3 =>
          if c3.Status ≥ 200 ∧ c3.Status < 300 ∧ !c3.IsAborted then
            match c3.redisClient, c3.cacheCfg with
            | some rc3, some cc =>
              Except.ok { c3 with redisClient := some (rc3.Set c.Request.URL.String
                (jsonMarshal { Status := c3.Status, Header := c3.writermem.header,
                               Data := c3.buffers.getD c.buffers.length [] })
                (cacheExpiration cc) c3.now) }
            | _, _ => Except.error nilDereference
          else Except.ok c3 := by
  unfold Cache cacheLookup cacheMissContext
  simp only [hget, ne_eq, not_true_eq_false, if_false, hrc]

theorem Set_cmds (r : RedisClient) (key : String) (value : Bytes) (e now : Int) :
    (r.Set key value e now).cmds = r.cmds ++ [RedisCmd.set key value e] := by
  unfold RedisClient.Set
  split <;> rfl

/-! ## C2 -/

/-- C2: on a GET request that misses the cache (the lookup fails, finds
nothing, or finds a value that does not decode) and whose downstream handler
returns, `Cache` issues a `Set` for the request URL if and only if the final
status `s` satisfies `200 ≤ s < 300` and the context is not aborted; the value
written is the marshalled envelope of status, headers and captured body;
otherwise, and in particular for status 500, the state is the one the handler
left, with no command issued. -/
theorem C2_store_iff_success_and_not_aborted (next : Ctx → Except String Ctx) (c c3 : Ctx)
    (rc rc3 : RedisClient) (cc : CacheConfig)
    (hget : c.Request.Method = MethodGet) (hrc : c.redisClient = some rc)
    (hmiss : cacheLookup rc c.Request.URL.String c.now = none)
    (hnext : next (cacheMissContext c rc) = Except.ok c3)
    (hrc3 : c3.redisClient = some rc3) (hcc : c3.cacheCfg = some cc) :
    ∃ c4 rc4, Cache next c = Except.ok c4 ∧ c4.redisClient = some rc4 ∧
      ((∃ v e, rc4.cmds = rc3.cmds ++ [RedisCmd.set c.Request.URL.String v e]) ↔
        (200 ≤ c3.Status ∧ c3.Status < 300 ∧ c3.IsAborted = false)) ∧
      ((200 ≤ c3.Status ∧ c3.Status < 300 ∧ c3.IsAborted = false) →
        rc4 = rc3.Set c.Request.URL.String
          (jsonMarshal { Status := c3.Status, Header := c3.writermem.header,
                         Data := c3.buffers.getD c.buffers.length [] })
          (cacheExpiration cc) c3.now) ∧
      (¬ (200 ≤ c3.Status ∧ c3.Status < 300 ∧ c3.IsAborted = false) → c4 = c3) ∧
      (c3.Status = 500 → c4 = c3) := by
  rw [Cache_get next c rc hget hrc, hmiss]
  simp only [hnext]
  by_cases hs : 200 ≤ c3.Status ∧ c3.Status < 300 ∧ c3.IsAborted = false
  · have hcond : c3.Status ≥ 200 ∧ c3.Status < 300 ∧ (!c3.IsAborted) = true := by
      obtain ⟨h1, h2, h3⟩ := hs
      exact ⟨h1, h2, by simp [h3]⟩
    rw [if_pos hcond]
    simp only [hrc3, hcc]
    refine ⟨_, _, rfl, rfl, ?_, fun _ => rfl, fun h => absurd hs h, ?_⟩
    · constructor
      · intro _
        exact hs
      · intro _
        exact ⟨_, _, Set_cmds _ _ _ _ _⟩
    · intro h500
      omega
  · have hcond : ¬ (c3.Status ≥ 200 ∧ c3.Status < 300 ∧ (!c3.IsAborted) = true) := by
      intro h
      obtain ⟨h1, h2, h3⟩ := h
      exact hs ⟨h1, h2, by simpa using h3⟩
    rw [if_neg hcond]
    refine ⟨c3, rc3, rfl, hrc3, ?_, fun h => absurd h hs, fun _ => rfl, fun _ => rfl⟩
    constructor
    · intro h
      obtain ⟨v, e, h⟩ := h
      have := congrArg List.length h
      simp at this
    · intro h
      exact absurd h hs

theorem C2_store_iff_success_and_not_aborted_witness :
    ∃ c4 rc4,
      Cache (fun c => Except.ok (c.JSON 200 healthBody))
        (newRequest (InitRedis startState emptyRedis ⟨60⟩) getHealth "10.0.0.1" 0) = Except.ok c4 ∧
      c4.redisClient = some rc4 ∧
      ((∃ v e, rc4.cmds = (emptyRedis.Get "/health" 0).2.cmds ++ [RedisCmd.set "/health" v e]) ↔
        (200 ≤ (200 : Int) ∧ (200 : Int) < 300 ∧ false = false)) :=
  have h := C2_store_iff_success_and_not_aborted (fun c => Except.ok (c.JSON 200 healthBody))
    (newRequest (InitRedis startState emptyRedis ⟨60⟩) getHealth "10.0.0.1" 0)
    ((cacheMissContext (newRequest (InitRedis startState emptyRedis ⟨60⟩) getHealth "10.0.0.1" 0)
      emptyRedis).JSON 200 healthBody)
    emptyRedis (emptyRedis.Get "/health" 0).2 ⟨60⟩ rfl rfl (by decide) rfl (by decide!) (by decide!)
  match h with
  | ⟨c4, rc4, h1, h2, h3, _⟩ => ⟨c4, rc4, h1, h2, h3⟩

/-! ## C3 -/

/-- C3 (failing input): a handler answers `GET /swagger/favicon-32x32.png` with
status 200 and a body that starts like every PNG file, with the byte `0x89`.
The first client receives these bytes; the second request, one second later
and served from the cache, receives `EF BF BD` in place of `0x89`:
`json.Marshal` has replaced the byte that is not UTF-8 by U+FFFD, so decoding
the stored envelope does not give back the body that was encoded. -/
theorem C3_binary_body_not_replayed_verbatim :
    serveAll [Cache, writeHandler pngSignature] getFavicon "10.0.0.1"
        (InitRedis startState emptyRedis ⟨60⟩) [0, 1000000000] =
      Except.ok [{ status := 200, body := [[137, 80, 78, 71, 13, 10, 26, 10]] },
                 { status := 200, body := [[239, 191, 189, 80, 78, 71, 13, 10, 26, 10]] }] ∧
    jsonUnmarshal (jsonMarshal { Status := 200, Header := [], Data := pngSignature }) =
      some { Status := 200, Header := [], Data := [239, 191, 189, 80, 78, 71, 13, 10, 26, 10] } := by
  decide!

/-! ## C4 -/

/-- C4 (failing input): a middleware ahead of `Cache` sets
`Access-Control-Allow-Origin` on every response. The first `GET /health` is
answered by the handler with one value for that header; the second, answered
from the cache, is sent with the value twice: the replay adds the stored value
to the one already set. -/
theorem C4_replay_duplicates_header :
    (stateAfter [withHeader (str "Access-Control-Allow-Origin") (str "http://localhost:8080"),
        Cache, health] getHealth "10.0.0.1" (InitRedis startState emptyRedis ⟨60⟩)
        [0]).map (fun c => c.sentHeader (str "Access-Control-Allow-Origin")) =
      Except.ok [str "http://localhost:8080"] ∧
    (stateAfter [withHeader (str "Access-Control-Allow-Origin") (str "http://localhost:8080"),
        Cache, health] getHealth "10.0.0.1" (InitRedis startState emptyRedis ⟨60⟩)
        [0, 1000000000]).map (fun c => c.sentHeader (str "Access-Control-Allow-Origin")) =
      Except.ok [str "http://localhost:8080", str "http://localhost:8080"] := by
  decide!

/-! ## C5 -/

/-- C5: when the limiter of the client denies the request, whatever its method,
the chain `RateLimit`, `Cache`, `h` ends with the same context for every final
handler `h` (which is therefore not run): the response is the 429 rejection,
the context is aborted, and the Redis client, with the list of commands issued,
is the one before the request. -/
theorem C5_denied_request_skips_cache_and_handler (c c1 : Ctx) (cfg : RateLimitConfig)
    (lim lim1 : rate.Limiter) (hidx : c.index = -1)
    (hsize : c.writermem.size = noWritten) (hsink : c.writermem.sink = [])
    (hcfg : c.cfg = some cfg)
    (hget : getClientLimiter c c.ClientIP = Except.ok (lim, c1))
    (hdeny : lim.Allow c.now = (false, lim1)) :
    ∃ c2, (∀ h : HandlerFunc, ServeHTTP [RateLimit, Cache, h] c = Except.ok c2) ∧
      c2.response = denied ∧ c2.IsAborted = true ∧ c2.redisClient = c.redisClient := by
  have hget0 : getClientLimiter { c with index := c.index + 1 } c.ClientIP =
      Except.ok (lim, { c1 with index := c.index + 1 }) := by
    rw [getClientLimiter_index, hget]
  have key : ∀ h : HandlerFunc, ServeHTTP [RateLimit, Cache, h] c =
      Except.ok
        { (Ctx.JSON
            { c with index := c.index + 1,
                     clients := setClient c.clients c.ClientIP { limiter := lim1, lastSeen := c.now } }
            StatusTooManyRequests tooManyRequestsBody).Abort with index := abortIndex + 1 } := by
    intro h
    have hlen : ([RateLimit, Cache, h] : List HandlerFunc).length + 1 = 3 + 1 := rfl
    unfold ServeHTTP Next
    rw [hlen, nextLoop_run _ 3 _ RateLimit (by simp [hidx]) (by simp [hidx])]
    rw [RateLimit_spec _ { c with index := c.index + 1 } _ cfg lim lim1 false hcfg hget0 hdeny]
    simp only [Bool.false_eq_true, if_false]
    rw [show (3 : Nat) = 2 + 1 from rfl, nextLoop_done _ 2 _ (by simp [Ctx.Abort, abortIndex])]
    rfl
  refine ⟨_, key, ?_, ?_, ?_⟩
  · simp only [Ctx.response, Ctx.Abort]
    exact JSON_fresh_response _ _ _ (by decide) (by decide) hsize hsink
  · simp [Ctx.IsAborted, abortIndex]
  · simp [Ctx.Abort, (JSON_frame _ _ _).2.2.2.1]

theorem C5_denied_request_skips_cache_and_handler_witness :
    ∃ c2, (∀ h : HandlerFunc, ServeHTTP [RateLimit, Cache, h]
        (newRequest (InitRateLimit (InitRedis startState emptyRedis ⟨60⟩) ⟨60, 0, 5⟩)
          { Method := "POST", URL := { Path := "/api/users", RawQuery := "" } } "10.0.0.1" 0) =
        Except.ok c2) ∧
      c2.response = denied ∧ c2.IsAborted = true ∧ c2.redisClient = some emptyRedis :=
  C5_denied_request_skips_cache_and_handler
    (newRequest (InitRateLimit (InitRedis startState emptyRedis ⟨60⟩) ⟨60, 0, 5⟩)
      { Method := "POST", URL := { Path := "/api/users", RawQuery := "" } } "10.0.0.1" 0)
    _ ⟨60, 0, 5⟩ (rate.NewLimiter (rate.Every 1000000000) 0)
    (rate.NewLimiter (rate.Every 1000000000) 0) rfl rfl rfl rfl rfl (by decide!)

/-! ## C6 -/

/-- C6: on a request whose method is not GET, `Cache` is the downstream
handler and nothing else: it issues no Redis command and writes nothing of its
own, whatever the handler does; in particular the Redis client and the
response are exactly as the handler leaves them. -/
theorem C6_non_get_bypasses_cache (next : Ctx → Except String Ctx) (c : Ctx)
    (hmethod : c.Request.Method ≠ MethodGet) :
    Cache next c = next c ∧
      ∀ c1, next c = Except.ok c1 →
        ∃ c2, Cache next c = Except.ok c2 ∧ c2.redisClient = c1.redisClient ∧
          c2.writermem = c1.writermem := by
  have h : Cache next c = next c := by
    unfold Cache
    rw [if_pos hmethod]
  exact ⟨h, fun c1 h1 => ⟨c1, by rw [h, h1], rfl, rfl⟩⟩

theorem C6_non_get_bypasses_cache_witness :
    Cache (fun c => Except.ok (c.JSON 500 healthBody))
        (newRequest (InitRedis startState emptyRedis ⟨60⟩)
          { Method := "POST", URL := { Path := "/api/users", RawQuery := "" } } "10.0.0.1" 0) =
      (fun c => Except.ok (c.JSON 500 healthBody))
        (newRequest (InitRedis startState emptyRedis ⟨60⟩)
          { Method := "POST", URL := { Path := "/api/users", RawQuery := "" } } "10.0.0.1" 0) :=
  (C6_non_get_bypasses_cache (fun c => Except.ok (c.JSON 500 healthBody))
    (newRequest (InitRedis startState emptyRedis ⟨60⟩)
      { Method := "POST", URL := { Path := "/api/users", RawQuery := "" } } "10.0.0.1" 0)
    (by decide)).1

/-! ## C7 -/

theorem goDiv_Minute_neg (rpm : Int) (h : rpm < 0) :
    ∃ I, goDiv time.Minute rpm = Except.ok I ∧ I ≤ 0 := by
  have hM : time.Minute = 60000000000 := by decide
  have h1 : Int.tdiv 60000000000 rpm = -(60000000000 / (-rpm)) := by
    have hr : rpm = -(-rpm) := by omega
    rw [hr, Int.tdiv_neg, Int.tdiv_eq_ediv (by norm_num) (by omega)]
    simp
  have h2 : (0 : Int) ≤ 60000000000 / (-rpm) := Int.ediv_nonneg (by norm_num) (by omega)
  have h3 : (60000000000 : Int) / (-rpm) ≤ 60000000000 := Int.ediv_le_self _ (by norm_num)
  refine ⟨-(60000000000 / (-rpm)), ?_, by omega⟩
  unfold goDiv
  rw [if_neg (by omega), hM, h1,
    wrapInt64_of_range _ (by unfold minInt64; omega) (by unfold maxInt64; omega)]

theorem Every_nonpos (I : Int) (h : I ≤ 0) : rate.Every I = rate.Inf := by
  unfold rate.Every
  rw [if_pos h]

/-- A limiter with the infinite limit allows every request and does not change. -/
theorem Allow_Inf (lim : rate.Limiter) (t : Int) (h : lim.limit = rate.Inf) :
    lim.Allow t = (true, lim) := by
  unfold rate.Limiter.Allow rate.Limiter.reserveN
  rw [if_pos h]

/-- With a negative rate every request of a client is admitted, whether the
client is new or has a limiter created under that configuration. -/
theorem serveAll_unlimited (req : Request) (ip : String) (cfg : RateLimitConfig)
    (hneg : cfg.RequestsPerMinute < 0) (times : List Int) :
    ∀ g : Ctx, g.cfg = some cfg →
      (g.clients ip = none ∨ ∃ cl, g.clients ip = some cl ∧ cl.limiter.limit = rate.Inf) →
      serveAll [RateLimit, health] req ip g times =
        Except.ok (List.replicate times.length admitted) := by
  induction times with
  | nil =>
    intro g _ _
    rfl
  | cons t ts ih =>
    intro g hcfg hcl
    obtain ⟨I, hdiv, hI⟩ := goDiv_Minute_neg cfg.RequestsPerMinute hneg
    have hstep : ∃ c2, ServeHTTP [RateLimit, health] (newRequest g req ip t) = Except.ok c2 ∧
        c2.cfg = some cfg ∧ (∃ cl, c2.clients ip = some cl ∧ cl.limiter.limit = rate.Inf) ∧
        c2.response = admitted := by
      rcases hcl with hnew | ⟨cl, hcl, hlim⟩
      · have ha := Allow_Inf (rate.NewLimiter (rate.Every I) cfg.BurstSize) t
          (Every_nonpos I hI)
        obtain ⟨c2, h1, h2, h3, h4⟩ := serve_new g req ip t cfg I _ true hcfg hnew hdiv ha
        exact ⟨c2, h1, h2, ⟨_, h3, Every_nonpos I hI⟩, by simpa using h4⟩
      · have ha := Allow_Inf cl.limiter t hlim
        obtain ⟨c2, h1, h2, h3, h4⟩ := serve_existing g req ip t cfg cl _ true hcfg hcl ha
        exact ⟨c2, h1, h2, ⟨_, h3, hlim⟩, by simpa using h4⟩
    obtain ⟨c2, h1, h2, h3, h4⟩ := hstep
    rw [List.length_cons, List.replicate_succ]
    exact serveAll_cons _ _ _ _ _ _ _ _ _ h1 h4 (ih c2 h2 (Or.inr h3))

/-- The first request of a client under a configuration with
`requestsPerMinute = 0` panics in `getClientLimiter` on `time.Minute / 0`. -/
theorem zero_rate_panics_at_request_time :
    serveAll [RateLimit, health] getHealth "10.0.0.1" (InitRateLimit startState ⟨0, 5, 5⟩) [0] =
      Except.error "runtime error: integer divide by zero" := by
  decide!

/-- C7, as stated, fails: `InitRateLimit` stores the configurations with
`requestsPerMinute = -1` and `requestsPerMinute = 0` unchanged, rejecting
neither. Under the first, requests are then served, with no limit (three
requests at one instant pass a burst size of 1). -/
theorem C7_counterexample :
    (InitRateLimit startState ⟨-1, 1, 5⟩).cfg = some ⟨-1, 1, 5⟩ ∧
    (InitRateLimit startState ⟨0, 1, 5⟩).cfg = some ⟨0, 1, 5⟩ ∧
    serveAll [RateLimit, health] getHealth "10.0.0.1" (InitRateLimit startState ⟨-1, 1, 5⟩)
      [0, 0, 0] = Except.ok [admitted, admitted, admitted] := by
  decide!

/-- C7 (amended): for every rate-limit configuration with
`requestsPerMinute < 0`, `InitRateLimit` stores the configuration unchanged, and
no later request fails or panics because of it: every request of a client new
to the registry is served and admitted, whatever the arrival times (the
divisor of `time.Minute / requestsPerMinute` is not zero, the interval is not
positive, and the limiter is unlimited). -/
theorem C7_negative_rate_accepted_and_never_fails (cfg : RateLimitConfig) (g : Ctx)
    (req : Request) (ip : String) (times : List Int)
    (hneg : cfg.RequestsPerMinute < 0) (hnew : g.clients ip = none) :
    (InitRateLimit g cfg).cfg = some cfg ∧
      (∃ I, goDiv time.Minute cfg.RequestsPerMinute = Except.ok I ∧ I ≤ 0) ∧
      serveAll [RateLimit, health] req ip (InitRateLimit g cfg) times =
        Except.ok (List.replicate times.length admitted) :=
  ⟨rfl, goDiv_Minute_neg cfg.RequestsPerMinute hneg,
    serveAll_unlimited req ip cfg hneg times (InitRateLimit g cfg) rfl (Or.inl hnew)⟩

theorem C7_negative_rate_accepted_and_never_fails_witness :
    serveAll [RateLimit, health] getHealth "10.0.0.1" (InitRateLimit startState ⟨-60, 5, 5⟩)
        [0, 0, 7] = Except.ok (List.replicate [(0 : Int), 0, 7].length admitted) :=
  (C7_negative_rate_accepted_and_never_fails ⟨-60, 5, 5⟩ startState getHealth "10.0.0.1"
    [0, 0, 7] (by decide) rfl).2.2

/-! ## C8 -/

/-- C8, as stated, fails: the stored string `{}` is no serialization of a cache
entry (it carries no status, no header map and no data), yet `json.Unmarshal`
accepts it, and `Cache` answers `GET /health` from it with status 200 and an
empty body instead of running the handler. -/
theorem C8_counterexample :
    jsonUnmarshal (str "\x7b\x7d") = some { Status := 0, Header := [], Data := [] } ∧
    jsonMarshal { Status := 0, Header := [], Data := [] } ≠ str "\x7b\x7d" ∧
    serveAll [Cache, health] getHealth "10.0.0.1"
        (InitRedis startState
          { entries := [("/health", { value := str "\x7b\x7d", expireAt := none })],
            reachable := true, cmds := [] } ⟨60⟩) [0] =
      Except.ok [{ status := 200, body := [[]] }] ∧
    serveAll [Cache, health] getHealth "10.0.0.1" (InitRedis startState emptyRedis ⟨60⟩) [0] =
      Except.ok [admitted] := by
  decide!

/-- C8 (amended): on a GET request, when the lookup returns an error, returns
no value, or returns a string that `json.Unmarshal` rejects for the envelope,
`Cache` treats it as a miss: the writer handed to the downstream handler is
untouched (nothing is replayed), the handler is run, and the response is the
one the handler leaves. -/
theorem C8_failed_or_undecodable_lookup_is_miss (next : Ctx → Except String Ctx) (c c3 : Ctx)
    (rc rc3 : RedisClient) (cc : CacheConfig)
    (hget : c.Request.Method = MethodGet) (hrc : c.redisClient = some rc)
    (hmiss : (rc.Get c.Request.URL.String c.now).1 = RedisResult.err ∨
      (rc.Get c.Request.URL.String c.now).1 = RedisResult.nil ∨
      ∃ val, (rc.Get c.Request.URL.String c.now).1 = RedisResult.ok val ∧
        jsonUnmarshal val = none)
    (hnext : next (cacheMissContext c rc) = Except.ok c3)
    (hrc3 : c3.redisClient = some rc3) (hcc : c3.cacheCfg = some cc) :
    (cacheMissContext c rc).writermem = c.writermem ∧
      ∃ c4, Cache next c = Except.ok c4 ∧ c4.writermem = c3.writermem ∧
        c4.response = c3.response := by
  have hlook : cacheLookup rc c.Request.URL.String c.now = none := by
    unfold cacheLookup
    rcases hmiss with h | h | ⟨val, h, h2⟩
    · rw [h]
    · rw [h]
    · rw [h]
      exact h2
  refine ⟨rfl, ?_⟩
  rw [Cache_get next c rc hget hrc, hlook]
  simp only [hnext, hrc3, hcc]
  split
  · exact ⟨_, rfl, rfl, rfl⟩
  · exact ⟨_, rfl, rfl, rfl⟩

theorem C8_failed_or_undecodable_lookup_is_miss_witness :
    ∃ c4, Cache (fun c => Except.ok (c.JSON 200 healthBody))
        (newRequest (InitRedis startState
          { entries := [("/health", { value := str "oops", expireAt := none })],
            reachable := true, cmds := [] } ⟨60⟩) getHealth "10.0.0.1" 0) = Except.ok c4 ∧
      c4.response = admitted :=
  have h := C8_failed_or_undecodable_lookup_is_miss (fun c => Except.ok (c.JSON 200 healthBody))
    (newRequest (InitRedis startState
      { entries := [("/health", { value := str "oops", expireAt := none })],
        reachable := true, cmds := [] } ⟨60⟩) getHealth "10.0.0.1" 0)
    ((cacheMissContext (newRequest (InitRedis startState
      { entries := [("/health", { value := str "oops", expireAt := none })],
        reachable := true, cmds := [] } ⟨60⟩) getHealth "10.0.0.1" 0)
      { entries := [("/health", { value := str "oops", expireAt := none })],
        reachable := true, cmds := [] }).JSON 200 healthBody)
    { entries := [("/health", { value := str "oops", expireAt := none })],
      reachable := true, cmds := [] }
    { entries := [("/health", { value := str "oops", expireAt := none })],
      reachable := true, cmds := [RedisCmd.get "/health"] }
    ⟨60⟩ rfl rfl (Or.inr (Or.inr ⟨str "oops", by decide!, by decide!⟩)) rfl (by decide!)
    (by decide!)
  match h with
  | ⟨_, c4, h1, _, h3⟩ => ⟨c4, h1, h3.trans (by decide!)⟩

/-! ## C9 -/

/-- C9 (failing input): the handler sends the two bytes `hi` with
`c.Writer.WriteString`. They reach the underlying writer, but the buffer of the
capturing `responseWriter` stays empty (with `c.Writer.Write` it holds them), so
the envelope stored has an empty body and the next request is answered from
the cache with no body. -/
theorem C9_WriteString_not_captured :
    ((cacheMissContext (newRequest (InitRedis startState emptyRedis ⟨60⟩) getHealth "10.0.0.1" 0)
        emptyRedis).WriteString [104, 105]).writermem.sink = [[104, 105]] ∧
    ((cacheMissContext (newRequest (InitRedis startState emptyRedis ⟨60⟩) getHealth "10.0.0.1" 0)
        emptyRedis).WriteString [104, 105]).buffers = [[]] ∧
    ((cacheMissContext (newRequest (InitRedis startState emptyRedis ⟨60⟩) getHealth "10.0.0.1" 0)
        emptyRedis).Write [104, 105]).buffers = [[104, 105]] ∧
    serveAll [Cache, writeStringHandler [104, 105]] getHealth "10.0.0.1"
        (InitRedis startState emptyRedis ⟨60⟩) [0, 1000000000] =
      Except.ok [{ status := 200, body := [[104, 105]] }, { status := 200, body := [[]] }] := by
  decide!

/-! ## C10 -/

theorem setClient_other (m : String → Option client) (ip k : String) (a : client)
    (h : k ≠ ip) : setClient m ip a k = m k := by
  simp [setClient, h]

/-- The cleanup threshold when `cleanupInterval` minutes fit a `time.Duration`. -/
theorem cleanupThreshold_of_range (cfg : RateLimitConfig)
    (hlo : -153722867 ≤ cfg.CleanupInterval) (hhi : cfg.CleanupInterval ≤ 153722867) :
    cleanupThreshold cfg = cfg.CleanupInterval * 60000000000 := by
  have hM : time.Minute = 60000000000 := by decide
  unfold cleanupThreshold
  rw [hM]
  exact wrapInt64_of_range _ (by unfold minInt64; omega) (by unfold maxInt64; omega)

/-- The saturation of `time.Since` does not change the comparison with a
threshold of at most 153722867 minutes in absolute value. -/
theorem Sub_gt_iff (t u thr : Int) (hlo : -9223372020000000000 ≤ thr)
    (hhi : thr ≤ 9223372020000000000) : time.Sub t u > thr ↔ t - u > thr := by
  unfold time.Sub minInt64 maxInt64
  omega

/-- The creation of a limiter for a client without an entry, for any rate other
than zero. -/
theorem getClientLimiter_absent (c : Ctx) (ip : String) (cfg : RateLimitConfig)
    (h : c.clients ip = none) (hcfg : c.cfg = some cfg) (hrpm : cfg.RequestsPerMinute ≠ 0) :
    getClientLimiter c ip = Except.ok
      (rate.NewLimiter (rate.Every (wrapInt64 (Int.tdiv time.Minute cfg.RequestsPerMinute)))
        cfg.BurstSize,
      { c with clients := setClient c.clients ip
                 { limiter := rate.NewLimiter
                     (rate.Every (wrapInt64 (Int.tdiv time.Minute cfg.RequestsPerMinute)))
                     cfg.BurstSize,
                   lastSeen := c.now } }) := by
  apply getClientLimiter_new c ip cfg _ h hcfg
  unfold goDiv
  rw [if_neg hrpm]

/-! ## C12 -/

theorem lookup_filter_ne (key k : String) (hk : k ≠ key) :
    ∀ es : List (String × RedisEntry),
      (es.filter (fun kv => kv.1 != key)).lookup k = es.lookup k := by
  intro es
  induction es with
  | nil => rfl
  | cons x xs ih =>
    obtain ⟨a, e⟩ := x
    by_cases ha : a = key
    · have hka : (k == a) = false := by
        rw [ha]
        simpa using hk
      have hf : ((a, e) :: xs).filter (fun kv => kv.1 != key) =
          xs.filter (fun kv => kv.1 != key) := by
        rw [List.filter_cons]
        simp [ha]
      rw [hf, ih, List.lookup, hka]
    · have hf : ((a, e) :: xs).filter (fun kv => kv.1 != key) =
          (a, e) :: xs.filter (fun kv => kv.1 != key) := by
        rw [List.filter_cons]
        simp [ha]
      rw [hf]
      cases hka : k == a with
      | true => simp [List.lookup, hka]
      | false => simp [List.lookup, hka, ih]

theorem Get_fst (r : RedisClient) (k : String) (t : Int) :
    (r.Get k t).1 =
      if r.reachable then
        match r.entries.lookup k with
        | some e => if e.live t then RedisResult.ok e.value else RedisResult.nil
        | none => RedisResult.nil
      else RedisResult.err := by
  unfold RedisClient.Get
  cases r.reachable with
  | false => rfl
  | true =>
    simp only [if_true]
    cases r.entries.lookup k with
    | none => rfl
    | some e => by_cases h : e.live t = true <;> simp [h]

/-- A `Get` after a `Set` on a reachable server: the key written gives the new
value while it is live, every other key gives what it gave before. -/
theorem Get_Set (r : RedisClient) (key : String) (value : Bytes) (e now : Int) (k : String)
    (t : Int) (hreach : r.reachable = true) :
    ((r.Set key value e now).Get k t).1 =
      if k = key then
        (if 0 < e ∧ now + e ≤ t then RedisResult.nil else RedisResult.ok value)
      else (r.Get k t).1 := by
  have hs : r.Set key value e now =
      { entries := (key, { value := value,
                           expireAt := if e > 0 then some (now + e) else none }) ::
          r.entries.filter (fun kv => kv.1 != key),
        reachable := true, cmds := r.cmds ++ [RedisCmd.set key value e] } := by
    unfold RedisClient.Set
    simp [hreach]
  rw [Get_fst, Get_fst, hs, hreach]
  simp only [if_true]
  by_cases hk : k = key
  · subst hk
    simp only [List.lookup, beq_self_eq_true, if_true, RedisEntry.live]
    by_cases he : e > 0
    · by_cases ht : t < now + e
      · rw [if_neg (by omega : ¬ (0 < e ∧ now + e ≤ t))]
        simp [he, ht]
      · rw [if_pos (by omega : 0 < e ∧ now + e ≤ t)]
        simp [he, ht]
    · rw [if_neg (by omega : ¬ (0 < e ∧ now + e ≤ t))]
      simp [he]
  · have hkb : (k == key) = false := by simpa using hk
    simp only [List.lookup, hkb, if_neg hk, lookup_filter_ne key k hk]

theorem Get_snd (r : RedisClient) (k : String) (t : Int) :
    (r.Get k t).2 = { r with cmds := r.cmds ++ [RedisCmd.get k] } := by
  unfold RedisClient.Get
  cases r.reachable with
  | false => rfl
  | true =>
    simp only [if_true]
    cases r.entries.lookup k with
    | none => rfl
    | some e => by_cases h : e.live t = true <;> simp [h]

/-- `Cache` on a GET request that misses, whose handler leaves a status from 200
to 299 and does not abort: the envelope is written under the URL string. -/
theorem Cache_store (next : Ctx → Except String Ctx) (c c3 : Ctx)
    (rc rc3 : RedisClient) (cc : CacheConfig)
    (hget : c.Request.Method = MethodGet) (hrc : c.redisClient = some rc)
    (hmiss : cacheLookup rc c.Request.URL.String c.now = none)
    (hnext : next (cacheMissContext c rc) = Except.ok c3)
    (hrc3 : c3.redisClient = some rc3) (hcc : c3.cacheCfg = some cc)
    (hstatus : 200 ≤ c3.Status ∧ c3.Status < 300 ∧ c3.IsAborted = false) :
    Cache next c = Except.ok { c3 with redisClient := some (rc3.Set c.Request.URL.String
      (jsonMarshal { Status := c3.Status, Header := c3.writermem.header,
                     Data := c3.buffers.getD c.buffers.length [] })
      (cacheExpiration cc) c3.now) } := by
  rw [Cache_get next c rc hget hrc, hmiss]
  simp only [hnext]
  have hcond : c3.Status ≥ 200 ∧ c3.Status < 300 ∧ (!c3.IsAborted) = true := by
    obtain ⟨h1, h2, h3⟩ := hstatus
    exact ⟨h1, h2, by simp [h3]⟩
  rw [if_pos hcond]
  simp only [hrc3, hcc]

/-- `Cache` on a GET request whose lookup finds a value that decodes: the
stored response is replayed and the handler is not run. -/
theorem Cache_hit (next : Ctx → Except String Ctx) (c : Ctx) (rc : RedisClient)
    (val : Bytes) (cached : Cached)
    (hget : c.Request.Method = MethodGet) (hrc : c.redisClient = some rc)
    (hval : (rc.Get c.Request.URL.String c.now).1 = RedisResult.ok val)
    (hdec : jsonUnmarshal val = some cached) :
    Cache next c =
      Except.ok (Ctx.Write (Ctx.WriteHeader
        { c with redisClient := some (rc.Get c.Request.URL.String c.now).2,
                 writermem := { c.writermem with
                   header := addHeaders c.writermem.header cached.Header } }
        cached.Status) cached.Data).Abort := by
  have hl : cacheLookup rc c.Request.URL.String c.now = some cached := by
    unfold cacheLookup
    rw [hval]
    exact hdec
  rw [Cache_get next c rc hget hrc, hl]

/-! ## C13 -/

/-- A response stored under a cache duration of 0 is stored with expiration 0,
and a reachable Redis then returns it for the URL at every later time. -/
theorem zero_duration_entry_never_expires (next : Ctx → Except String Ctx) (c c3 : Ctx)
    (rc rc3 : RedisClient) (cc : CacheConfig)
    (hget : c.Request.Method = MethodGet) (hrc : c.redisClient = some rc)
    (hmiss : cacheLookup rc c.Request.URL.String c.now = none)
    (hnext : next (cacheMissContext c rc) = Except.ok c3)
    (hrc3 : c3.redisClient = some rc3) (hcc : c3.cacheCfg = some cc)
    (hdur : cc.Duration = 0) (hreach : rc3.reachable = true)
    (hstatus : 200 ≤ c3.Status ∧ c3.Status < 300 ∧ c3.IsAborted = false) :
    ∃ c4 rc4 data, Cache next c = Except.ok c4 ∧ c4.redisClient = some rc4 ∧
      data = jsonMarshal { Status := c3.Status, Header := c3.writermem.header,
                           Data := c3.buffers.getD c.buffers.length [] } ∧
      rc4.cmds = rc3.cmds ++ [RedisCmd.set c.Request.URL.String data 0] ∧
      (∀ t : Int, (rc4.Get c.Request.URL.String t).1 = RedisResult.ok data) := by
  have hexp : cacheExpiration cc = 0 := by
    unfold cacheExpiration
    rw [hdur]
    decide
  have hstore := Cache_store next c c3 rc rc3 cc hget hrc hmiss hnext hrc3 hcc hstatus
  rw [hexp] at hstore
  refine ⟨_, _, _, hstore, rfl, rfl, Set_cmds _ _ _ _ _, ?_⟩
  intro t
  rw [Get_Set _ _ _ _ _ _ _ hreach, if_pos rfl, if_neg (by omega)]

/-- C13 (failing input): with `cacheDurationSeconds = 0`, a first `GET /health`,
answered by the handler with the body `first`, makes `Cache` issue a `set` for
`/health` with expiration 0 and leaves an entry in Redis that has no expiry; a second
`GET /health` a day later, for which the handler would answer `second`, is
answered from that entry with `first`, and the handler is not run. Caching is
not disabled: an entry is written, and a later request is served from it. -/
theorem C13_zero_duration_stores_and_replays :
    (stateAfter [Cache, writeHandler (str "first")] getHealth "10.0.0.1"
        (InitRedis startState emptyRedis ⟨0⟩) [0]).map
      (fun g => g.redisClient.map (fun rc => rc.cmds.map
        (fun cmd => match cmd with
          | RedisCmd.get key => (key, none)
          | RedisCmd.set key _ e => (key, some e)))) =
      Except.ok (some [("/health", none), ("/health", some 0)]) ∧
    (stateAfter [Cache, writeHandler (str "first")] getHealth "10.0.0.1"
        (InitRedis startState emptyRedis ⟨0⟩) [0]).map
      (fun g => g.redisClient.map (fun rc => rc.entries.map (fun kv => (kv.1, kv.2.expireAt)))) =
      Except.ok (some [("/health", none)]) ∧
    (stateAfter [Cache, writeHandler (str "first")] getHealth "10.0.0.1"
        (InitRedis startState emptyRedis ⟨0⟩) [0]).bind
      (fun g => serveAll [Cache, writeHandler (str "second")] getHealth "10.0.0.2" g
        [86400000000000]) =
      Except.ok [{ status := 200, body := [str "first"] }] := by
  decide!

/-! ## C14 -/

/-- C14, as stated, fails: with `cleanupInterval = 153722868` minutes the product
`time.Duration(cfg.CleanupInterval) * time.Minute` overflows to a negative
duration, and a sweep at the very instant a client was last seen (idle for 0 ns,
which is not more than 153722868 minutes) removes that client. -/
theorem C14_counterexample :
    cleanupThreshold ⟨60, 5, 153722868⟩ = -9223371993709551616 ∧
    (stateAfter [RateLimit, health] getHealth "10.0.0.1" (initState ⟨60, 5, 153722868⟩)
        [1000]).map (fun g => (g.clients "10.0.0.1").map (fun cl => cl.lastSeen)) =
      Except.ok (some 1000) ∧
    ¬ ((1000 : Int) - 1000 > 153722868 * 60000000000) ∧
    ((stateAfter [RateLimit, health] getHealth "10.0.0.1" (initState ⟨60, 5, 153722868⟩)
        [1000]).bind (fun g => cleanupSweep g 1000)).map (fun g => g.clients "10.0.0.1") =
      Except.ok none := by
  decide!

/-- C14 (amended): when `cleanupInterval` minutes fit a `time.Duration`
(`|cleanupInterval| ≤ 153722867`), one sweep of `cleanupRoutine` at time `t`
removes from the registry exactly the identities with
`t - lastSeen > cleanupInterval` minutes and leaves every other entry (limiter and
`lastSeen`) as it is; and when `requestsPerMinute` is not zero, the next request
of a removed identity, at any time `t2`, finds no entry and gets from
`getClientLimiter` a new limiter, the one a first-seen client gets, holding
`burstSize` tokens, which is stored with `lastSeen = t2`. -/
theorem C14_sweep_removes_exactly_idle_clients (g : Ctx) (cfg : RateLimitConfig) (t : Int)
    (hcfg : g.cfg = some cfg) (hlo : -153722867 ≤ cfg.CleanupInterval)
    (hhi : cfg.CleanupInterval ≤ 153722867) :
    ∃ g1, cleanupSweep g t = Except.ok g1 ∧ g1.cfg = some cfg ∧
      (∀ ip cl, g.clients ip = some cl →
        g1.clients ip =
          if t - cl.lastSeen > cfg.CleanupInterval * 60000000000 then none else some cl) ∧
      (∀ ip, g.clients ip = none → g1.clients ip = none) ∧
      (∀ ip cl req t2, g.clients ip = some cl →
        t - cl.lastSeen > cfg.CleanupInterval * 60000000000 → cfg.RequestsPerMinute ≠ 0 →
        ∃ lim c1, getClientLimiter (newRequest g1 req ip t2) ip = Except.ok (lim, c1) ∧
          lim = rate.NewLimiter
            (rate.Every (wrapInt64 (Int.tdiv time.Minute cfg.RequestsPerMinute))) cfg.BurstSize ∧
          lim.tokens = (cfg.BurstSize : ℚ) ∧ lim.burst = cfg.BurstSize ∧
          c1.clients ip = some { limiter := lim, lastSeen := t2 }) := by
  have hthr := cleanupThreshold_of_range cfg hlo hhi
  have hsweep : cleanupSweep g t =
      Except.ok { g with clients := sweepClients g.clients (cleanupThreshold cfg) t } := by
    unfold cleanupSweep
    rw [hcfg]
  have hsome : ∀ ip cl, g.clients ip = some cl →
      sweepClients g.clients (cleanupThreshold cfg) t ip =
        if t - cl.lastSeen > cfg.CleanupInterval * 60000000000 then none else some cl := by
    intro ip cl hcl
    unfold sweepClients
    rw [hcl, hthr]
    simp only []
    by_cases h : t - cl.lastSeen > cfg.CleanupInterval * 60000000000
    · rw [if_pos h, if_pos ((Sub_gt_iff _ _ _ (by omega) (by omega)).mpr h)]
    · rw [if_neg h, if_neg (fun h1 => h ((Sub_gt_iff _ _ _ (by omega) (by omega)).mp h1))]
  refine ⟨_, hsweep, hcfg, hsome, ?_, ?_⟩
  · intro ip hnone
    simp only [sweepClients, hnone]
  · intro ip cl req t2 hcl hidle hrpm
    have hgone : sweepClients g.clients (cleanupThreshold cfg) t ip = none := by
      rw [hsome ip cl hcl, if_pos hidle]
    exact ⟨_, _, getClientLimiter_absent _ ip cfg hgone hcfg hrpm, rfl, rfl, rfl,
      setClient_same _ _ _⟩

theorem C14_sweep_removes_exactly_idle_clients_witness :
    ∃ g1,
      cleanupSweep
        (withClient (initState ⟨60, 5, 1⟩) "10.0.0.1"
          { limiter := rate.NewLimiter (rate.Every 1000000000) 5, lastSeen := 0 })
        61000000000 = Except.ok g1 ∧
      g1.clients "10.0.0.1" = none ∧
      ∃ lim c1, getClientLimiter (newRequest g1 getHealth "10.0.0.1" 62000000000) "10.0.0.1" =
          Except.ok (lim, c1) ∧
        lim.tokens = ((5 : Int) : ℚ) ∧
        c1.clients "10.0.0.1" = some { limiter := lim, lastSeen := 62000000000 } :=
  match C14_sweep_removes_exactly_idle_clients
    (withClient (initState ⟨60, 5, 1⟩) "10.0.0.1"
      { limiter := rate.NewLimiter (rate.Every 1000000000) 5, lastSeen := 0 })
    ⟨60, 5, 1⟩ 61000000000 rfl (by decide) (by decide) with
  | ⟨g1, h1, _, h3, _, h5⟩ =>
    ⟨g1, h1,
      (h3 "10.0.0.1" { limiter := rate.NewLimiter (rate.Every 1000000000) 5, lastSeen := 0 }
        (by decide!)).trans (if_pos (by decide)),
      match h5 "10.0.0.1" { limiter := rate.NewLimiter (rate.Every 1000000000) 5, lastSeen := 0 }
        getHealth 62000000000 (by decide!) (by decide) (by decide) with
      | ⟨lim, c1, k1, _, k3, _, k5⟩ => ⟨lim, c1, k1, k3, k5⟩⟩

/-! ## C15 -/

/-- What `getClientLimiter` does to the registry when it returns. If `ip` has an
entry, it returns the limiter stored in it, and afterwards the entry holds that
same limiter with `lastSeen` set to the current time. If `ip` has no entry and
the rate configured is not zero, it returns a new limiter and afterwards `ip`
has an entry with that limiter and `lastSeen` set to the current time. In both
cases the entry of every other identity, and the configuration, are unchanged. -/
theorem getClientLimiter_frame (c : Ctx) (ip : String) :
    (∀ cl, c.clients ip = some cl →
      ∃ c1, getClientLimiter c ip = Except.ok (cl.limiter, c1) ∧
        c1.clients ip = some { limiter := cl.limiter, lastSeen := c.now } ∧
        (∀ k, k ≠ ip → c1.clients k = c.clients k) ∧ c1.cfg = c.cfg) ∧
    (∀ cfg, c.clients ip = none → c.cfg = some cfg → cfg.RequestsPerMinute ≠ 0 →
      ∃ lim c1, getClientLimiter c ip = Except.ok (lim, c1) ∧
        lim = rate.NewLimiter
          (rate.Every (wrapInt64 (Int.tdiv time.Minute cfg.RequestsPerMinute))) cfg.BurstSize ∧
        c1.clients ip = some { limiter := lim, lastSeen := c.now } ∧
        (∀ k, k ≠ ip → c1.clients k = c.clients k) ∧ c1.cfg = c.cfg) := by
  constructor
  · intro cl hcl
    exact ⟨_, getClientLimiter_existing c ip cl hcl, setClient_same _ _ _,
      fun k hk => setClient_other _ _ _ _ hk, rfl⟩
  · intro cfg hnone hcfg hrpm
    exact ⟨_, _, getClientLimiter_absent c ip cfg hnone hcfg hrpm, rfl, setClient_same _ _ _,
      fun k hk => setClient_other _ _ _ _ hk, rfl⟩

/-- C15 (failing input): `InitRateLimit` accepts a configuration with
`requestsPerMinute = 0`. With it, `getClientLimiter` on an identity that has no
entry does not insert an entry: it panics on the division
`time.Minute / time.Duration(cfg.RequestsPerMinute)`, which is evaluated before
the entry is stored, so the request is not served and the identity still has no
entry for the next request, which panics in the same way. An identity that has
an entry is not affected. -/
theorem C15_zero_rate_panics_before_insert :
    (InitRateLimit startState ⟨0, 5, 5⟩).cfg = some ⟨0, 5, 5⟩ ∧
    (newRequest (InitRateLimit startState ⟨0, 5, 5⟩) getHealth "10.0.0.1" 0).clients "10.0.0.1" =
      none ∧
    (getClientLimiter (newRequest (InitRateLimit startState ⟨0, 5, 5⟩) getHealth "10.0.0.1" 0)
        "10.0.0.1").map (fun p => p.1) =
      Except.error "runtime error: integer divide by zero" ∧
    serveAll [RateLimit, health] getHealth "10.0.0.1" (InitRateLimit startState ⟨0, 5, 5⟩) [0] =
      Except.error "runtime error: integer divide by zero" ∧
    (getClientLimiter
        (withClient (newRequest (InitRateLimit startState ⟨0, 5, 5⟩) getHealth "10.0.0.2" 7)
          "10.0.0.2" { limiter := rate.NewLimiter 1 5, lastSeen := 3 })
        "10.0.0.2").map (fun p => (p.1, p.2.clients "10.0.0.2")) =
      Except.ok (rate.NewLimiter 1 5, some { limiter := rate.NewLimiter 1 5, lastSeen := 7 }) := by
  decide!

/-! ## C16 -/

/-- C16: the key under which `Cache` looks a GET request up and stores its
response is the URL string of the request (path, and `?` with the raw query
when there is one), as it is. The lookup is the command `get` for that string;
on a miss that is stored, the write is the command `set` for the same string,
and afterwards (on a reachable Redis) a lookup for the URL string of any URL `u`
at time `t` finds the entry just written if `u.String` equals the URL string of
the request (until it expires), and otherwise finds exactly what it found
before the write. Two URLs that differ in the order or in the values of their
query parameters have different URL strings. -/
theorem C16_cache_key_is_url_string (next : Ctx → Except String Ctx) (c c3 : Ctx)
    (rc rc3 : RedisClient) (cc : CacheConfig)
    (hget : c.Request.Method = MethodGet) (hrc : c.redisClient = some rc)
    (hmiss : cacheLookup rc c.Request.URL.String c.now = none)
    (hnext : next (cacheMissContext c rc) = Except.ok c3)
    (hrc3 : c3.redisClient = some rc3) (hcc : c3.cacheCfg = some cc)
    (hreach : rc3.reachable = true)
    (hstatus : 200 ≤ c3.Status ∧ c3.Status < 300 ∧ c3.IsAborted = false) :
    (cacheMissContext c rc).redisClient =
        some { rc with cmds := rc.cmds ++ [RedisCmd.get c.Request.URL.String] } ∧
    (∃ c4 rc4 data, Cache next c = Except.ok c4 ∧ c4.redisClient = some rc4 ∧
      data = jsonMarshal { Status := c3.Status, Header := c3.writermem.header,
                           Data := c3.buffers.getD c.buffers.length [] } ∧
      rc4.cmds = rc3.cmds ++ [RedisCmd.set c.Request.URL.String data (cacheExpiration cc)] ∧
      (∀ (u : URL) (t : Int), (rc4.Get u.String t).1 =
        if u.String = c.Request.URL.String then
          (if 0 < cacheExpiration cc ∧ c3.now + cacheExpiration cc ≤ t then RedisResult.nil
           else RedisResult.ok data)
        else (rc3.Get u.String t).1) ∧
      (∀ (u : URL) (t : Int), u.String ≠ c.Request.URL.String →
        cacheLookup rc4 u.String t = cacheLookup rc3 u.String t)) ∧
    URL.String { Path := "/users", RawQuery := "a=1&b=2" } ≠
      URL.String { Path := "/users", RawQuery := "b=2&a=1" } ∧
    URL.String { Path := "/users", RawQuery := "a=1&b=2" } ≠
      URL.String { Path := "/users", RawQuery := "a=1&b=3" } := by
  have hstore := Cache_store next c c3 rc rc3 cc hget hrc hmiss hnext hrc3 hcc hstatus
  refine ⟨?_, ⟨_, _, _, hstore, rfl, rfl, Set_cmds _ _ _ _ _, ?_, ?_⟩, by decide, by decide⟩
  · simp only [cacheMissContext, Get_snd]
  · intro u t
    exact Get_Set _ _ _ _ _ _ _ hreach
  · intro u t hne
    unfold cacheLookup
    rw [Get_Set _ _ _ _ _ _ _ hreach, if_neg hne]

theorem C16_cache_key_is_url_string_witness :
    ∃ c4 rc4 data,
      Cache (fun c => Except.ok (c.JSON 200 healthBody))
        (newRequest (InitRedis startState emptyRedis ⟨60⟩)
          { Method := "GET", URL := { Path := "/users", RawQuery := "a=1&b=2" } } "10.0.0.1" 0) =
        Except.ok c4 ∧
      c4.redisClient = some rc4 ∧
      rc4.cmds = [RedisCmd.get "/users?a=1&b=2"] ++
        [RedisCmd.set "/users?a=1&b=2" data (cacheExpiration ⟨60⟩)] ∧
      cacheLookup rc4 "/users?b=2&a=1" 1 = none :=
  have h := C16_cache_key_is_url_string (fun c => Except.ok (c.JSON 200 healthBody))
    (newRequest (InitRedis startState emptyRedis ⟨60⟩)
      { Method := "GET", URL := { Path := "/users", RawQuery := "a=1&b=2" } } "10.0.0.1" 0)
    ((cacheMissContext (newRequest (InitRedis startState emptyRedis ⟨60⟩)
      { Method := "GET", URL := { Path := "/users", RawQuery := "a=1&b=2" } } "10.0.0.1" 0)
      emptyRedis).JSON 200 healthBody)
    emptyRedis (emptyRedis.Get "/users?a=1&b=2" 0).2 ⟨60⟩ rfl rfl (by decide) rfl
    (by decide!) (by decide!) (by decide) (by decide!)
  match h with
  | ⟨_, ⟨c4, rc4, data, h1, h2, _, h4, _, h6⟩, _, _⟩ =>
    ⟨c4, rc4, data, h1, h2, h4,
      (h6 { Path := "/users", RawQuery := "b=2&a=1" } 1 (by decide)).trans (by decide)⟩

/-! ## C17 -/

theorem foldl_digits_ge (cs : Bytes) :
    ∀ n : Nat, n ≤ cs.foldl (fun acc d => acc * 10 + (d - 48)) n := by
  induction cs with
  | nil => intro n; exact le_refl n
  | cons c cs ih =>
    intro n
    simp only [List.foldl_cons]
    exact le_trans (by omega) (ih (n * 10 + (c - 48)))

/-- The loop of `ParseUint(s, 10, 32)` from an accumulated value within 32 bits:
it ends without error exactly on a run of digits whose value stays within 32
bits, and then returns that value. -/
theorem parseUintLoop_decimal (cs : Bytes) :
    ∀ n : Nat, n ≤ 4294967295 →
      (cs.all isDigit = true ∧ cs.foldl (fun acc d => acc * 10 + (d - 48)) n ≤ 4294967295 →
        strconv.parseUintLoop 10 (strconv.maxUint64 / 10 + 1) (2 ^ 32 - 1) cs n =
          (cs.foldl (fun acc d => acc * 10 + (d - 48)) n, none)) ∧
      (¬ (cs.all isDigit = true ∧ cs.foldl (fun acc d => acc * 10 + (d - 48)) n ≤ 4294967295) →
        ∃ v e, strconv.parseUintLoop 10 (strconv.maxUint64 / 10 + 1) (2 ^ 32 - 1) cs n =
          (v, some e)) := by
  induction cs with
  | nil =>
    intro n hn
    constructor
    · intro _
      rfl
    · intro h
      exact absurd ⟨rfl, hn⟩ h
  | cons c cs ih =>
    intro n hn
    have hcut : strconv.maxUint64 / 10 + 1 = 1844674407370955162 := by decide
    have hmax : 2 ^ 32 - 1 = 4294967295 := by decide
    by_cases hd : 48 ≤ c ∧ c ≤ 57
    · have hdig : isDigit c = true := by simp [isDigit, hd.1, hd.2]
      have hstep : strconv.parseUintLoop 10 (strconv.maxUint64 / 10 + 1) (2 ^ 32 - 1) (c :: cs) n =
          if n * 10 + (c - 48) > 4294967295 then (4294967295, some strconv.NumError.outOfRange)
          else strconv.parseUintLoop 10 (strconv.maxUint64 / 10 + 1) (2 ^ 32 - 1) cs
            (n * 10 + (c - 48)) := by
        rw [strconv.parseUintLoop]
        simp only [hd, and_self, if_true]
        have h1 : ¬ (c - 48 ≥ 10) := by omega
        have h2 : ¬ (n ≥ strconv.maxUint64 / 10 + 1) := by rw [hcut]; omega
        have e0 : n * 10 % 2 ^ 64 = n * 10 := Nat.mod_eq_of_lt (by omega)
        have e1 : (n * 10 + (c - 48)) % 2 ^ 64 = n * 10 + (c - 48) := Nat.mod_eq_of_lt (by omega)
        simp only [h1, h2, if_false, e0, e1, hmax]
        by_cases hbig : n * 10 + (c - 48) > 4294967295
        · rw [if_pos (Or.inr hbig), if_pos hbig]
        · rw [if_neg (by omega), if_neg hbig]
      simp only [List.all_cons, hdig, Bool.true_and, List.foldl_cons]
      rw [hstep]
      by_cases hbig : n * 10 + (c - 48) > 4294967295
      · rw [if_pos hbig]
        constructor
        · intro h
          have := foldl_digits_ge cs (n * 10 + (c - 48))
          omega
        · intro _
          exact ⟨_, _, rfl⟩
      · rw [if_neg hbig]
        exact ih (n * 10 + (c - 48)) (by omega)
    · have hdig : isDigit c = false := by
        simp only [isDigit, Bool.and_eq_false_iff, decide_eq_false_iff_not]
        omega
      constructor
      · intro h
        simp [hdig] at h
      · intro _
        rw [strconv.parseUintLoop]
        simp only [hd, if_false]
        by_cases hl : 97 ≤ strconv.lower c ∧ strconv.lower c ≤ 122
        · simp only [hl, and_self, if_true]
          have h1 : strconv.lower c - 97 + 10 ≥ 10 := by omega
          simp only [h1, if_true]
          exact ⟨_, _, rfl⟩
        · simp only [hl, if_false]
          exact ⟨_, _, rfl⟩

/-- `strconv.ParseUint(s, 10, 32)` returns no error exactly when `s` is a
base-10 unsigned integer representable in 32 bits, and then returns its value. -/
theorem ParseUint_decimal (s : Bytes) :
    (isUint32Decimal s = true → strconv.ParseUint s 10 32 = (digitsValue s, none)) ∧
    (isUint32Decimal s = false → ∃ v e, strconv.ParseUint s 10 32 = (v, some e)) := by
  unfold isUint32Decimal strconv.ParseUint digitsValue
  by_cases hs : s = []
  · subst hs
    constructor
    · intro h
      simp at h
    · intro _
      exact ⟨_, _, rfl⟩
  · have hne : s.isEmpty = false := by
      cases s with
      | nil => exact absurd rfl hs
      | cons _ _ => rfl
    have hloop := parseUintLoop_decimal s 0 (by omega)
    simp only [hs, if_false, hne, Bool.not_false, Bool.true_and]
    have hbase : ¬ ¬ (2 ≤ 10 ∧ 10 ≤ 36) := by omega
    simp only [show ((32 : Nat) = 0) = False from by simp, if_false]
    rw [if_neg hbase, if_neg (by omega)]
    constructor
    · intro h
      simp only [Bool.and_eq_true, decide_eq_true_eq] at h
      exact hloop.1 h
    · intro h
      apply hloop.2
      intro h1
      simp [h1.1, h1.2] at h

/-- C17, as stated, fails for `UpdateUser`: with the id `1`, a base-10 unsigned
integer representable in 32 bits, and a request body that does not bind (an
empty body, for which `c.ShouldBindJSON` returns the error `EOF`), the handler
does not call the user service; it responds with status 400 and the binding
error. -/
theorem C17_counterexample :
    isUint32Decimal (str "1") = true ∧
    (UserHandler.UpdateUser oneUserService (str "1") (Except.error (str "EOF"))
        (newRequest startState putUser "10.0.0.1" 0)).1 = [] ∧
    (UserHandler.UpdateUser oneUserService (str "1") (Except.error (str "EOF"))
        (newRequest startState putUser "10.0.0.1" 0)).1 ≠
      [ServiceCall.UpdateUser 1 { Username := [], Email := [], Password := [] }] ∧
    (UserHandler.UpdateUser oneUserService (str "1") (Except.error (str "EOF"))
        (newRequest startState putUser "10.0.0.1" 0)).2.response =
      { status := 400, body := [str "\x7b\"error\":\"EOF\"\x7d"] } := by
  decide

/-- C17 (amended): for every value `id` of the `:id` path parameter, every user
service, and a context `c` to which nothing has been written. If `id` is not a
base-10 unsigned integer representable in 32 bits, `GetUser`, `UpdateUser` and
`DeleteUser` make no call on the service and respond with status 400 and the
body `{"error":"invalid user ID"}`. Otherwise `GetUser` and `DeleteUser` make
exactly one call on the service, with the value of `id`; `UpdateUser` does so,
with the value of `id` and the request bound, when the body binds, and when it
does not bind it makes no call and responds with status 400 and the binding
error. -/
theorem C17_invalid_id_rejected_valid_id_passed (svc : IUserService) (id : Bytes)
    (bound : Except Bytes UpdateUserRequest) (c : Ctx)
    (hsize : c.writermem.size = noWritten) (hsink : c.writermem.sink = []) :
    (isUint32Decimal id = false →
      UserHandler.GetUser svc id c =
        ([], c.JSON 400 (marshalErrorResponse UserHandler.invalidUserID)) ∧
      UserHandler.UpdateUser svc id bound c =
        ([], c.JSON 400 (marshalErrorResponse UserHandler.invalidUserID)) ∧
      UserHandler.DeleteUser svc id c =
        ([], c.JSON 400 (marshalErrorResponse UserHandler.invalidUserID)) ∧
      (c.JSON 400 (marshalErrorResponse UserHandler.invalidUserID)).response =
        { status := 400, body := [str "\x7b\"error\":\"invalid user ID\"\x7d"] }) ∧
    (isUint32Decimal id = true →
      (UserHandler.GetUser svc id c).1 = [ServiceCall.GetUserByID (digitsValue id)] ∧
      (UserHandler.DeleteUser svc id c).1 = [ServiceCall.DeleteUser (digitsValue id)] ∧
      (∀ req, bound = Except.ok req →
        (UserHandler.UpdateUser svc id bound c).1 =
          [ServiceCall.UpdateUser (digitsValue id) req]) ∧
      (∀ err, bound = Except.error err →
        (UserHandler.UpdateUser svc id bound c).1 = [] ∧
        (UserHandler.UpdateUser svc id bound c).2.response =
          { status := 400, body := [marshalErrorResponse err] })) := by
  constructor
  · intro hbad
    obtain ⟨v, e, hp⟩ := (ParseUint_decimal id).2 hbad
    refine ⟨?_, ?_, ?_, ?_⟩
    · simp only [UserHandler.GetUser, hp]
    · simp only [UserHandler.UpdateUser, hp]
    · simp only [UserHandler.DeleteUser, hp]
    · rw [JSON_fresh_response c 400 _ (by decide) (by decide) hsize hsink]
      have : marshalErrorResponse UserHandler.invalidUserID =
          str "\x7b\"error\":\"invalid user ID\"\x7d" := by decide
      rw [this]
  · intro hgood
    have hp := (ParseUint_decimal id).1 hgood
    refine ⟨?_, ?_, ?_, ?_⟩
    · simp only [UserHandler.GetUser, hp]
      cases svc.GetUserByID (digitsValue id) <;> rfl
    · simp only [UserHandler.DeleteUser, hp]
      cases svc.DeleteUser (digitsValue id) <;> rfl
    · intro req hb
      subst hb
      simp only [UserHandler.UpdateUser, hp]
      cases svc.UpdateUser (digitsValue id) req <;> rfl
    · intro err hb
      subst hb
      simp only [UserHandler.UpdateUser, hp]
      exact ⟨trivial, JSON_fresh_response c 400 _ (by decide) (by decide) hsize hsink⟩

theorem C17_invalid_id_rejected_valid_id_passed_witness :
    (UserHandler.GetUser oneUserService (str "4294967296")
        (newRequest startState putUser "10.0.0.1" 0)).1 = [] ∧
    (UserHandler.GetUser oneUserService (str "4294967296")
        (newRequest startState putUser "10.0.0.1" 0)).2.response =
      { status := 400, body := [str "\x7b\"error\":\"invalid user ID\"\x7d"] } ∧
    (UserHandler.DeleteUser oneUserService (str "-1")
        (newRequest startState putUser "10.0.0.1" 0)).1 = [] ∧
    (UserHandler.GetUser oneUserService (str "0042")
        (newRequest startState putUser "10.0.0.1" 0)).1 = [ServiceCall.GetUserByID 42] :=
  ⟨congrArg Prod.fst
      ((C17_invalid_id_rejected_valid_id_passed oneUserService (str "4294967296")
        (Except.error []) (newRequest startState putUser "10.0.0.1" 0) rfl rfl).1 (by decide)).1,
    (congrArg (fun p => p.2.response)
      ((C17_invalid_id_rejected_valid_id_passed oneUserService (str "4294967296")
        (Except.error []) (newRequest startState putUser "10.0.0.1" 0) rfl rfl).1
          (by decide)).1).trans
      ((C17_invalid_id_rejected_valid_id_passed oneUserService (str "4294967296")
        (Except.error []) (newRequest startState putUser "10.0.0.1" 0) rfl rfl).1
          (by decide)).2.2.2,
    congrArg Prod.fst
      ((C17_invalid_id_rejected_valid_id_passed oneUserService (str "-1")
        (Except.error []) (newRequest startState putUser "10.0.0.1" 0) rfl rfl).1
          (by decide)).2.2.1,
    ((C17_invalid_id_rejected_valid_id_passed oneUserService (str "0042")
        (Except.error []) (newRequest startState putUser "10.0.0.1" 0) rfl rfl).2
          (by decide)).1⟩

/-! ## C18 -/

/-- The keys under which `NewUserService` registers mock responses. -/
theorem NewUserService_keys (client : Bytes → Bytes → Option Bytes → RoundTrip)
    (baseURL now : Bytes) :
    (UserService.NewUserService client baseURL now).httpSender.mockMode = true ∧
    (UserService.NewUserService client baseURL now).httpSender.mockData.map (fun kv => kv.1) =
      [str "DELETE:/users/1", str "PUT:/users/1", str "GET:/users/1", str "POST:/users",
       str "GET:/users"] :=
  ⟨rfl, rfl⟩

theorem lookup_none_of_keys {β : Type} (key : Bytes) :
    ∀ l : List (Bytes × β), (∀ k ∈ l.map (fun kv => kv.1), key ≠ k) → l.lookup key = none := by
  intro l
  induction l with
  | nil => intro _; rfl
  | cons x xs ih =>
    intro h
    have h1 : key ≠ x.1 := h x.1 (by simp)
    have h2 : (key == x.1) = false := by simpa using h1
    obtain ⟨a, b⟩ := x
    simp only [List.lookup, h2]
    exact ih (fun k hk => h k (by simp at hk ⊢; right; exact hk))

/-- No mock response is registered under the key of a `ListUsers` request. -/
theorem ListUsers_key_not_registered (client : Bytes → Bytes → Option Bytes → RoundTrip)
    (baseURL now : Bytes) (page pageSize : Int) :
    (UserService.NewUserService client baseURL now).httpSender.mockData.lookup
      (HTTPSender.mockKey (str "GET")
        (str "/users?page=" ++ appendInt page ++ str "&page_size=" ++ appendInt pageSize)) =
      none := by
  apply lookup_none_of_keys
  rw [(NewUserService_keys client baseURL now).2]
  have hlen : 16 ≤ (HTTPSender.mockKey (str "GET")
      (str "/users?page=" ++ appendInt page ++ str "&page_size=" ++ appendInt pageSize)).length := by
    simp only [HTTPSender.mockKey, List.length_append]
    have : (str "GET").length = 3 := by decide
    have : (str ":").length = 1 := by decide
    have : (str "/users?page=").length = 12 := by decide
    omega
  intro k hk hkey
  rw [hkey] at hlen
  simp only [List.mem_cons, List.mem_singleton, List.not_mem_nil, or_false] at hk
  rcases hk with h | h | h | h | h <;> rw [h] at hlen <;> revert hlen <;> decide

/-- The message with which `ListUsers` of the service fails. -/
theorem ListUsers_service_fails (lib : JSONLib)
    (client : Bytes → Bytes → Option Bytes → RoundTrip) (baseURL now : Bytes)
    (page pageSize : Int) :
    UserService.ListUsers lib (UserService.NewUserService client baseURL now) page pageSize =
      Except.error (str ("failed to list users: json: cannot unmarshal object into Go value " ++
        "of type []responses.UserResponse")) := by
  have hmode := (NewUserService_keys client baseURL now).1
  have hkey := ListUsers_key_not_registered client baseURL now page pageSize
  have hjson : jsonUnmarshalInto lib HTTPSender.defaultMock Target.users =
      Except.error (str "json: cannot unmarshal object into Go value of type []responses.UserResponse") :=
    rfl
  simp only [UserService.ListUsers, HTTPSender.Get, HTTPSender.SendRequest, hmode, if_true, hkey,
    hjson]
  decide

/-- The sibling path: `GetUserByID(1)` builds the key `GET:/users/1`, which is
registered, and returns the mock user; and a `GET` for the path `/users` itself,
without a query string, finds the two mock users (shown for a
`Time.UnmarshalJSON` that accepts the text of the time). -/
theorem registered_paths_find_their_mocks :
    UserService.GetUserByID { parseTime := fun t => some t, errorText := fun _ => [] }
        (UserService.NewUserService (fun _ _ _ => RoundTrip.notSent [])
          (str "http://localhost:8081") (str "2024-01-01T00:00:00Z")) 1 =
      Except.ok { ID := 1, Username := str "john_doe", Email := str "john@example.com",
                  CreatedAt := str "2024-01-01T00:00:00Z",
                  UpdatedAt := str "2024-01-01T00:00:00Z" } ∧
    HTTPSender.Get { parseTime := fun t => some t, errorText := fun _ => [] }
        (UserService.NewUserService (fun _ _ _ => RoundTrip.notSent [])
          (str "http://localhost:8081") (str "2024-01-01T00:00:00Z")).httpSender
        (str "/users") (some Target.users) =
      Except.ok (some (Value.users (some [
        { ID := 1, Username := str "john_doe", Email := str "john@example.com",
          CreatedAt := str "2024-01-01T00:00:00Z", UpdatedAt := str "2024-01-01T00:00:00Z" },
        { ID := 2, Username := str "jane_smith", Email := str "jane@example.com",
          CreatedAt := str "2024-01-01T00:00:00Z",
          UpdatedAt := str "2024-01-01T00:00:00Z" }]))) := by
  decide!

/-- C18 (failing input): for a `UserService` built by `NewUserService`, whatever
the page and the page size, `ListUsers` builds the path
`/users?page=<page>&page_size=<pageSize>`, whose key `GET:/users?page=...` is not
the key `GET:/users` under which the two mock users are registered; the sender
falls back to the default mock `{"message":"default mock response"}`, an object,
which does not decode into a `[]responses.UserResponse`. `ListUsers` returns an
error, not the two users, and the `ListUsers` handler, on a new request with any
values of the `page` and `page_size` parameters, calls the service once and
answers with status 400 and that error, not with status 200 and the array. -/
theorem C18_ListUsers_misses_mock_and_answers_400 (lib : JSONLib)
    (client : Bytes → Bytes → Option Bytes → RoundTrip) (baseURL now : Bytes)
    (page pageSize : Int) (pageParam sizeParam : Bytes) (g : Ctx) (req : Request) (ip : String)
    (t : Int) :
    UserService.ListUsers lib (UserService.NewUserService client baseURL now) page pageSize =
      Except.error (str ("failed to list users: json: cannot unmarshal object into Go value " ++
        "of type []responses.UserResponse")) ∧
    UserService.ListUsers lib (UserService.NewUserService client baseURL now) page pageSize ≠
      Except.ok (some [
        { ID := 1, Username := str "john_doe", Email := str "john@example.com",
          CreatedAt := now, UpdatedAt := now },
        { ID := 2, Username := str "jane_smith", Email := str "jane@example.com",
          CreatedAt := now, UpdatedAt := now }]) ∧
    (UserHandler.ListUsers
        ((UserService.NewUserService client baseURL now).toIUserService lib)
        pageParam sizeParam (newRequest g req ip t)).1 =
      [ServiceCall.ListUsers (strconv.Atoi pageParam).1 (strconv.Atoi sizeParam).1] ∧
    (UserHandler.ListUsers
        ((UserService.NewUserService client baseURL now).toIUserService lib)
        pageParam sizeParam (newRequest g req ip t)).2.response =
      { status := 400,
        body := [str ("\x7b\"error\":\"failed to list users: json: cannot unmarshal object " ++
          "into Go value of type []responses.UserResponse\"\x7d")] } := by
  have hfail := ListUsers_service_fails lib client baseURL now
  refine ⟨hfail page pageSize, ?_, ?_, ?_⟩
  · rw [hfail page pageSize]
    intro h
    cases h
  · simp only [UserHandler.ListUsers, UserService.toIUserService, hfail]
  · simp only [UserHandler.ListUsers, UserService.toIUserService, hfail]
    rw [JSON_fresh_response _ 400 _ (by decide) (by decide) rfl rfl]
    decide

end ApiGateway
